import Mathlib

/-!
# Verification of the segment-intersection engine of `intersections-api`

Shallow embedding of `main.go`, in two readings of its `float64` arithmetic.

* The exact reading: a Go `[]float64` point is a `List ℚ` and the arithmetic is that of the
  rationals. The claims stated over exact arithmetic are settled on it.
* The binary64 reading (`F64`, namespace `Float64`): the same functions with IEEE 754
  round-to-nearest arithmetic, overflow to infinity, underflow and not-a-number. It decides
  what the program does where rounding or overflow matters.
* Indexing a slice out of range panics in Go; here every function that indexes returns an
  `Option`, `none` standing for that run-time panic.
* The slice returned by `findIntersectionPoint` is `nil` or a two-element slice; it is an
  `Option (List ℚ)` with `none` for `nil` (serialised as JSON `null`).
* The HTTP handler is a function from a request and its collaborators (JSON codec, file
  system) to the response sent and the reads performed.
-/

namespace Intersections

/-! ## Data model -/

/-- Go `[]float64`, used as a point. -/
abbrev Point := List ℚ

/-- Go `Linestring`; the field `Type` is spelled `Type_`, `Type` being reserved. -/
structure Linestring where
  Type_ : String
  Coordinates : List Point
  deriving DecidableEq

/-- Go `ScatteredLine`. -/
structure ScatteredLine where
  ID : String
  StartPoint : Point
  EndPoint : Point
  deriving DecidableEq

/-- Go `Intersection`; `Intersect = none` is the `nil` slice. -/
structure Intersection where
  LineID : String
  Intersect : Option (List ℚ)
  deriving DecidableEq

/-! ## Geometry primitives -/

/-- Go `max`. -/
def max (a b : ℚ) : ℚ :=
  if a > b then a else b

/-- Go `min`. -/
def min (a b : ℚ) : ℚ :=
  if a < b then a else b

/-- Go `getOrientation`, arithmetic read as exact: `0` collinear, `1` clockwise, `2`
counter-clockwise. `Float64.getOrientation` is the binary64 reading. -/
def getOrientation (p q r : Point) : Option Int := do
  let val := ((← q[1]?) - (← p[1]?)) * ((← r[0]?) - (← q[0]?))
    - ((← q[0]?) - (← p[0]?)) * ((← r[1]?) - (← q[1]?))
  if val = 0 then
    return 0
  else if val > 0 then
    return 1
  else
    return 2

/-- Go `isOnSegment`; the conjunction is evaluated left to right and stops at the first
false conjunct, as `&&` does. -/
def isOnSegment (p q r : Point) : Option Bool := do
  if (← q[0]?) ≤ max (← p[0]?) (← r[0]?) then
    if (← q[0]?) ≥ min (← p[0]?) (← r[0]?) then
      if (← q[1]?) ≤ max (← p[1]?) (← r[1]?) then
        if (← q[1]?) ≥ min (← p[1]?) (← r[1]?) then
          return true
  return false

/-- Go `doLinesIntersect`, arithmetic read as exact. -/
def doLinesIntersect (p1 p2 q1 q2 : Point) : Option Bool := do
  let o1 ← getOrientation p1 p2 q1
  let o2 ← getOrientation p1 p2 q2
  let o3 ← getOrientation q1 q2 p1
  let o4 ← getOrientation q1 q2 p2
  if o1 ≠ o2 ∧ o3 ≠ o4 then
    return true
  if o1 = 0 then
    if (← isOnSegment p1 q1 p2) then
      return true
  if o2 = 0 then
    if (← isOnSegment p1 q2 p2) then
      return true
  if o3 = 0 then
    if (← isOnSegment q1 p1 q2) then
      return true
  if o4 = 0 then
    if (← isOnSegment q1 p2 q2) then
      return true
  return false

/-- Go `findIntersectionPoint`, arithmetic read as exact; the inner `none` is the `nil` slice.
`Float64.findIntersectionPoint` is the binary64 reading. -/
def findIntersectionPoint (p1 p2 q1 q2 : Point) : Option (Option (List ℚ)) := do
  let x1 ← p1[0]?
  let y1 ← p1[1]?
  let x2 ← p2[0]?
  let y2 ← p2[1]?
  let x3 ← q1[0]?
  let y3 ← q1[1]?
  let x4 ← q2[0]?
  let y4 ← q2[1]?
  let denominator := (x1 - x2) * (y3 - y4) - (y1 - y2) * (x3 - x4)
  if denominator = 0 then
    return none
  let intersectX := ((x1 * y2 - y1 * x2) * (x3 - x4) - (x1 - x2) * (x3 * y4 - y3 * x4)) / denominator
  let intersectY := ((x1 * y2 - y1 * x2) * (y3 - y4) - (y1 - y2) * (x3 * y4 - y3 * x4)) / denominator
  return some [intersectX, intersectY]

/-- Division that fails on a zero divisor. -/
def checkedDiv (a b : ℚ) : Option ℚ :=
  if b = 0 then none else some (a / b)

/-- Go `findIntersectionPoint` read with every division checked: the outer `none` is also
returned when a division is reached with a zero divisor. -/
def findIntersectionPointChecked (p1 p2 q1 q2 : Point) : Option (Option (List ℚ)) := do
  let x1 ← p1[0]?
  let y1 ← p1[1]?
  let x2 ← p2[0]?
  let y2 ← p2[1]?
  let x3 ← q1[0]?
  let y3 ← q1[1]?
  let x4 ← q2[0]?
  let y4 ← q2[1]?
  let denominator := (x1 - x2) * (y3 - y4) - (y1 - y2) * (x3 - x4)
  if denominator = 0 then
    return none
  let intersectX ←
    checkedDiv ((x1 * y2 - y1 * x2) * (x3 - x4) - (x1 - x2) * (x3 * y4 - y3 * x4)) denominator
  let intersectY ←
    checkedDiv ((x1 * y2 - y1 * x2) * (y3 - y4) - (y1 - y2) * (x3 * y4 - y3 * x4)) denominator
  return some [intersectX, intersectY]

/-! ## The all-pairs scan -/

/-- One iteration of the inner loop of `findIntersections`, at index `i` of the polyline. -/
def scanStep (line : ScatteredLine) (coords : List Point) (intersections : List Intersection)
    (i : Nat) : Option (List Intersection) := do
  if (← doLinesIntersect line.StartPoint line.EndPoint (← coords[i - 1]?) (← coords[i]?)) then
    let intersection : Intersection :=
      { LineID := line.ID
        Intersect := ← findIntersectionPoint line.StartPoint line.EndPoint
          (← coords[i - 1]?) (← coords[i]?) }
    return intersections ++ [intersection]
  return intersections

/-- The inner loop `for i := 1; i < len(linestring.Coordinates); i++`. -/
def scanLine (coords : List Point) (intersections : List Intersection) (line : ScatteredLine) :
    Option (List Intersection) :=
  (List.range' 1 (coords.length - 1)).foldlM (scanStep line coords) intersections

/-- Go `findIntersections`: the outer loop over the reference segments. -/
def findIntersections (linestring : Linestring) (scatteredLines : List ScatteredLine) :
    Option (List Intersection) :=
  scatteredLines.foldlM (scanLine linestring.Coordinates) []

/-! ## The HTTP handler

The Go standard library is not part of the repository. Its constants carry their documented
values, `http.Error` and `Header.Get` their documented behaviour, and the JSON codec and the
file system are parameters of the handler (`Env`). -/

/-- Go `http.MethodPost`. -/
def http.MethodPost : String := "POST"

/-- Go `http.StatusOK`. -/
def http.StatusOK : Nat := 200

/-- Go `http.StatusBadRequest`. -/
def http.StatusBadRequest : Nat := 400

/-- Go `http.StatusUnauthorized`. -/
def http.StatusUnauthorized : Nat := 401

/-- Go `http.StatusMethodNotAllowed`. -/
def http.StatusMethodNotAllowed : Nat := 405

/-- Go `http.StatusInternalServerError`. -/
def http.StatusInternalServerError : Nat := 500

/-- The parts of a Go `*http.Request` the handler reads; `Header` maps a canonical key to its
values, no values for an absent key. -/
structure Request where
  Method : String
  Header : String → List String
  Body : String

/-- What the handler has sent through its `http.ResponseWriter`. -/
structure Response where
  Status : Nat
  Header : List (String × String)
  Body : String
  deriving DecidableEq

/-- The reads the handler performs before it answers. -/
inductive Effect where
  | decodeBody
  | readFile (filename : String)
  deriving DecidableEq

/-- The collaborators of the handler: `none` stands for a returned `err`. -/
structure Env where
  /-- Go `json.NewDecoder(r.Body).Decode(&linestring)`. -/
  decodeLinestring : String → Option Linestring
  /-- Go `ioutil.ReadFile`. -/
  readFile : String → Option String
  /-- Go `json.Unmarshal(fileData, &scatteredLines)`. -/
  unmarshalLines : String → Option (List ScatteredLine)
  /-- Go `json.Marshal(intersections)`. -/
  marshal : List Intersection → Option String

/-- The result of one call of the handler: the response sent (`none` when the handler panics
before it sends one) and the reads performed, in order. -/
structure Outcome where
  Response : Option Response
  Effects : List Effect

/-- Go `Header.Get`: the first value of the key, `""` when there is none. -/
def Header.Get (h : String → List String) (key : String) : String :=
  match h key with
  | [] => ""
  | v :: _ => v

/-- Go `http.Error`: sets the two headers, writes the status, and writes the message followed
by a newline as the body. -/
def http.Error (error : String) (code : Nat) : Response :=
  { Status := code
    Header := [("Content-Type", "text/plain; charset=utf-8"), ("X-Content-Type-Options", "nosniff")]
    Body := error ++ "\n" }

/-- Go `w.WriteHeader(code)` followed by `return`: a status and nothing else. -/
def writeHeaderOnly (code : Nat) : Response :=
  { Status := code, Header := [], Body := "" }

/-- Go `loadScatteredLines`; `none` is a returned `err`. -/
def loadScatteredLines (env : Env) (filename : String) : Option (List ScatteredLine) :=
  match env.readFile filename with
  | none => none
  | some fileData => env.unmarshalLines fileData

/-- Go `handleIntersections`. -/
def handleIntersections (env : Env) (r : Request) : Outcome :=
  if r.Method ≠ http.MethodPost then
    ⟨some (http.Error "Only POST requests are allowed" http.StatusMethodNotAllowed), []⟩
  else
    let authHeader := Header.Get r.Header "Authorization"
    if authHeader ≠ "Authorization" then
      ⟨some (http.Error "Unauthorized" http.StatusUnauthorized), []⟩
    else
      match env.decodeLinestring r.Body with
      | none => ⟨some (writeHeaderOnly http.StatusBadRequest), [.decodeBody]⟩
      | some linestring =>
        match loadScatteredLines env "scattered_lines.json" with
        | none =>
          ⟨some (writeHeaderOnly http.StatusInternalServerError),
            [.decodeBody, .readFile "scattered_lines.json"]⟩
        | some scatteredLines =>
          match findIntersections linestring scatteredLines with
          | none => ⟨none, [.decodeBody, .readFile "scattered_lines.json"]⟩
          | some intersections =>
            match env.marshal intersections with
            | none =>
              ⟨some (writeHeaderOnly http.StatusInternalServerError),
                [.decodeBody, .readFile "scattered_lines.json"]⟩
            | some responseJSON =>
              ⟨some ⟨http.StatusOK, [("Content-Type", "application/json")], responseJSON⟩,
                [.decodeBody, .readFile "scattered_lines.json"]⟩

/-- An environment in which every collaborator returns an error. -/
def failingEnv : Env :=
  { decodeLinestring := fun _ => none
    readFile := fun _ => none
    unmarshalLines := fun _ => none
    marshal := fun _ => none }

/-! ## IEEE 754 binary64

The program computes with Go `float64`. The definitions above read its arithmetic as exact;
the definitions below read it as IEEE 754 binary64 with round to nearest, ties to even, every
operation rounded on its own (no fused multiply-add, as the Go compiler emits on amd64). -/

/-- An IEEE 754 binary64 value: not-a-number, an infinity, or a finite value
`± v * 2^(-1074)`. Every finite binary64 value is such a multiple, with `v < 2^2098` and
`v` of at most 53 significant bits; zero carries its sign. -/
inductive F64 where
  | nan
  | inf (neg : Bool)
  | fin (neg : Bool) (v : Nat)
  deriving DecidableEq

namespace F64

/-- The number `1` in units of `2^(-1074)`. -/
def unit : Nat := 1 <<< 1074

/-- The bound `2^1024` in units of `2^(-1074)`: a result of this size overflows. -/
def limit : Nat := 1 <<< 2098

/-- The largest `s < 4096` with `x / 2^s ≥ 2^52`, and `0` when `x < 2^52`: the number of low
bits of `x` beyond its 53 leading ones, found by bisection. -/
def shiftAmount (x : Nat) : Nat :=
  [2048, 1024, 512, 256, 128, 64, 32, 16, 8, 4, 2, 1].foldl
    (fun s k => if x >>> (s + k) ≥ 1 <<< 52 then s + k else s) 0

/-- The binary64 value nearest to `± (n / d) * 2^(-1074)`, ties to even; infinite when the
rounded value reaches `2^1024`. -/
def round (neg : Bool) (n d : Nat) : F64 :=
  let s := shiftAmount (n / d)
  let d' := d <<< s
  let q := n / d'
  let r := n % d'
  let q' := if 2 * r > d' ∨ (2 * r = d' ∧ q % 2 = 1) then q + 1 else q
  if q' <<< s ≥ limit then inf neg else fin neg (q' <<< s)

/-- Positive zero, the value of the Go constant `0`. -/
def zero : F64 := fin false 0

/-- Unary minus. -/
def neg : F64 → F64
  | nan => nan
  | inf s => inf (!s)
  | fin s v => fin (!s) v

/-- Binary64 addition. -/
def add : F64 → F64 → F64
  | nan, _ => nan
  | _, nan => nan
  | inf s, inf t => if s = t then inf s else nan
  | inf s, fin _ _ => inf s
  | fin _ _, inf t => inf t
  | fin s v, fin t w =>
    if s = t then round s (v + w) 1
    else if v > w then round s (v - w) 1
    else if w > v then round t (w - v) 1
    else fin false 0

/-- Binary64 subtraction, Go `a - b`. -/
def sub (a b : F64) : F64 := add a (neg b)

/-- Binary64 multiplication, Go `a * b`. -/
def mul : F64 → F64 → F64
  | nan, _ => nan
  | _, nan => nan
  | inf s, inf t => inf (s != t)
  | inf s, fin t w => if w = 0 then nan else inf (s != t)
  | fin s v, inf t => if v = 0 then nan else inf (s != t)
  | fin s v, fin t w => round (s != t) (v * w) unit

/-- Binary64 division, Go `a / b`. -/
def div : F64 → F64 → F64
  | nan, _ => nan
  | _, nan => nan
  | inf _, inf _ => nan
  | inf s, fin t _ => inf (s != t)
  | fin s _, inf t => fin (s != t) 0
  | fin s v, fin t w =>
    if w = 0 then (if v = 0 then nan else inf (s != t))
    else round (s != t) (v * unit) w

instance : Sub F64 := ⟨sub⟩

instance : Mul F64 := ⟨mul⟩

instance : Div F64 := ⟨div⟩

/-- The position of a value in the order of the extended reals, in units of `2^(-1074)`;
`none` for not-a-number. Both zeros have the same position. -/
def key : F64 → Option Int
  | nan => none
  | inf false => some (limit : Int)
  | inf true => some (-(limit : Int))
  | fin false v => some (v : Int)
  | fin true v => some (-(v : Int))

/-- Go `a == b` on `float64`: false when either side is not-a-number. -/
def eq (a b : F64) : Bool :=
  match key a, key b with
  | some x, some y => decide (x = y)
  | _, _ => false

/-- Go `a < b` on `float64`. -/
def lt (a b : F64) : Bool :=
  match key a, key b with
  | some x, some y => decide (x < y)
  | _, _ => false

/-- Go `a <= b` on `float64`. -/
def le (a b : F64) : Bool :=
  match key a, key b with
  | some x, some y => decide (x ≤ y)
  | _, _ => false

/-- Go `a > b` on `float64`. -/
def gt (a b : F64) : Bool := lt b a

/-- Go `a >= b` on `float64`. -/
def ge (a b : F64) : Bool := le b a

/-- The binary64 value of an integer that is one (every integer below `2^53` in absolute value,
and the larger ones of at most 53 significant bits). -/
def ofInt (n : Int) : F64 := fin (decide (n < 0)) (n.natAbs <<< 1074)

/-- The binary64 value `2^k`, for `k ≤ 1023`. -/
def pow2 (k : Nat) : F64 := fin false (1 <<< (k + 1074))

/-- The value is a binary64 value: a finite one is below `2^1024` and has at most 53
significant bits. -/
def isBinary64 : F64 → Bool
  | fin _ v => decide (v < limit) && decide ((v >>> shiftAmount v) <<< shiftAmount v = v)
  | _ => true

/-- The rational number a finite value stands for; `0` for the others. -/
def toRat : F64 → ℚ
  | nan => 0
  | inf _ => 0
  | fin false v => (v : ℚ) / 2 ^ 1074
  | fin true v => -((v : ℚ) / 2 ^ 1074)

/-- The point of the plane with the given finite binary64 coordinates. -/
def ratPoint (x y : F64) : ℚ × ℚ := (toRat x, toRat y)

end F64

/-! ## The program over binary64 -/

namespace Float64

/-- Go `Linestring`, coordinates in binary64. -/
structure Linestring where
  Type_ : String
  Coordinates : List (List F64)
  deriving DecidableEq

/-- Go `ScatteredLine`, coordinates in binary64. -/
structure ScatteredLine where
  ID : String
  StartPoint : List F64
  EndPoint : List F64
  deriving DecidableEq

/-- Go `Intersection`, coordinates in binary64; `Intersect = none` is the `nil` slice. -/
structure Intersection where
  LineID : String
  Intersect : Option (List F64)
  deriving DecidableEq

/-- Go `max`. -/
def max (a b : F64) : F64 :=
  if F64.gt a b then a else b

/-- Go `min`. -/
def min (a b : F64) : F64 :=
  if F64.lt a b then a else b

/-- Go `getOrientation` over binary64. -/
def getOrientation (p q r : List F64) : Option Int := do
  let val := ((← q[1]?) - (← p[1]?)) * ((← r[0]?) - (← q[0]?))
    - ((← q[0]?) - (← p[0]?)) * ((← r[1]?) - (← q[1]?))
  if F64.eq val F64.zero then
    return 0
  else if F64.gt val F64.zero then
    return 1
  else
    return 2

/-- Go `isOnSegment` over binary64. -/
def isOnSegment (p q r : List F64) : Option Bool := do
  if F64.le (← q[0]?) (max (← p[0]?) (← r[0]?)) then
    if F64.ge (← q[0]?) (min (← p[0]?) (← r[0]?)) then
      if F64.le (← q[1]?) (max (← p[1]?) (← r[1]?)) then
        if F64.ge (← q[1]?) (min (← p[1]?) (← r[1]?)) then
          return true
  return false

/-- Go `doLinesIntersect` over binary64. -/
def doLinesIntersect (p1 p2 q1 q2 : List F64) : Option Bool := do
  let o1 ← getOrientation p1 p2 q1
  let o2 ← getOrientation p1 p2 q2
  let o3 ← getOrientation q1 q2 p1
  let o4 ← getOrientation q1 q2 p2
  if o1 ≠ o2 ∧ o3 ≠ o4 then
    return true
  if o1 = 0 then
    if (← isOnSegment p1 q1 p2) then
      return true
  if o2 = 0 then
    if (← isOnSegment p1 q2 p2) then
      return true
  if o3 = 0 then
    if (← isOnSegment q1 p1 q2) then
      return true
  if o4 = 0 then
    if (← isOnSegment q1 p2 q2) then
      return true
  return false

/-- Go `findIntersectionPoint` over binary64; the inner `none` is the `nil` slice. -/
def findIntersectionPoint (p1 p2 q1 q2 : List F64) : Option (Option (List F64)) := do
  let x1 ← p1[0]?
  let y1 ← p1[1]?
  let x2 ← p2[0]?
  let y2 ← p2[1]?
  let x3 ← q1[0]?
  let y3 ← q1[1]?
  let x4 ← q2[0]?
  let y4 ← q2[1]?
  let denominator := (x1 - x2) * (y3 - y4) - (y1 - y2) * (x3 - x4)
  if F64.eq denominator F64.zero then
    return none
  let intersectX := ((x1 * y2 - y1 * x2) * (x3 - x4) - (x1 - x2) * (x3 * y4 - y3 * x4)) / denominator
  let intersectY := ((x1 * y2 - y1 * x2) * (y3 - y4) - (y1 - y2) * (x3 * y4 - y3 * x4)) / denominator
  return some [intersectX, intersectY]

/-- One iteration of the inner loop of `findIntersections`, at index `i` of the polyline. -/
def scanStep (line : ScatteredLine) (coords : List (List F64))
    (intersections : List Intersection) (i : Nat) : Option (List Intersection) := do
  if (← doLinesIntersect line.StartPoint line.EndPoint (← coords[i - 1]?) (← coords[i]?)) then
    let intersection : Intersection :=
      { LineID := line.ID
        Intersect := ← findIntersectionPoint line.StartPoint line.EndPoint
          (← coords[i - 1]?) (← coords[i]?) }
    return intersections ++ [intersection]
  return intersections

/-- The inner loop `for i := 1; i < len(linestring.Coordinates); i++`. -/
def scanLine (coords : List (List F64)) (intersections : List Intersection)
    (line : ScatteredLine) : Option (List Intersection) :=
  (List.range' 1 (coords.length - 1)).foldlM (scanStep line coords) intersections

/-- Go `findIntersections` over binary64. -/
def findIntersections (linestring : Linestring) (scatteredLines : List ScatteredLine) :
    Option (List Intersection) :=
  scatteredLines.foldlM (scanLine linestring.Coordinates) []

/-- Every point of the polyline and of the reference set has at least two coordinates. -/
def WellFormed (c : List (List F64)) (refs : List ScatteredLine) : Prop :=
  (∀ p ∈ c, 2 ≤ p.length) ∧ ∀ l ∈ refs, 2 ≤ l.StartPoint.length ∧ 2 ≤ l.EndPoint.length

end Float64

/-! ## Specification-side geometry -/

/-- A point of the plane, on the specification side. -/
abbrev Pt := ℚ × ℚ

/-- The point `x` lies on the closed segment from `a` to `b`. -/
def OnClosedSegment (a b x : Pt) : Prop :=
  ∃ t : ℚ, 0 ≤ t ∧ t ≤ 1 ∧ x.1 = a.1 + t * (b.1 - a.1) ∧ x.2 = a.2 + t * (b.2 - a.2)

/-- The closed segments `p1 p2` and `q1 q2` have a point in common. -/
def SegmentsMeet (p1 p2 q1 q2 : Pt) : Prop :=
  ∃ x : Pt, OnClosedSegment p1 p2 x ∧ OnClosedSegment q1 q2 x

/-- The three points are collinear: the cross product of `b - a` and `c - a` vanishes. -/
def Collinear3 (a b c : Pt) : Prop :=
  (b.1 - a.1) * (c.2 - a.2) - (b.2 - a.2) * (c.1 - a.1) = 0

/-- The directions of the segments `p1 p2` and `q1 q2` are parallel. -/
def Parallel (p1 p2 q1 q2 : Pt) : Prop :=
  (p2.1 - p1.1) * (q2.2 - q1.2) - (p2.2 - p1.2) * (q2.1 - q1.1) = 0

/-- The four points lie on one line `a * x + b * y = c`. -/
def OnCommonLine (p1 p2 q1 q2 : Pt) : Prop :=
  ∃ a b c : ℚ, (a ≠ 0 ∨ b ≠ 0) ∧ a * p1.1 + b * p1.2 = c ∧ a * p2.1 + b * p2.2 = c ∧
    a * q1.1 + b * q1.2 = c ∧ a * q2.1 + b * q2.2 = c

/-- The axis-aligned bounding boxes of the segments `p1 p2` and `q1 q2` do not overlap:
they are separated along the first or along the second coordinate. -/
def BoxesDisjoint (p1 p2 q1 q2 : Pt) : Prop :=
  Max.max p1.1 p2.1 < Min.min q1.1 q2.1 ∨ Max.max q1.1 q2.1 < Min.min p1.1 p2.1 ∨
  Max.max p1.2 p2.2 < Min.min q1.2 q2.2 ∨ Max.max q1.2 q2.2 < Min.min p1.2 p2.2

/-! ## Specification-side description of the scan -/

/-- The query segments `(c[i-1], c[i])`, `i = 1 .. n-1`, of a polyline, in increasing order. -/
def querySegments (c : List Point) : List (Point × Point) :=
  c.zip c.tail

/-- All (reference segment, query segment) pairs: reference segments in input order (outer),
query segments in increasing order (inner). -/
def allPairs (refs : List ScatteredLine) (c : List Point) :
    List (ScatteredLine × Point × Point) :=
  refs.flatMap fun line => (querySegments c).map fun seg => (line, seg)

/-- The pair passes `doLinesIntersect`. -/
def isHit (e : ScatteredLine × Point × Point) : Bool :=
  doLinesIntersect e.1.StartPoint e.1.EndPoint e.2.1 e.2.2 = some true

/-- The pairs on which `doLinesIntersect` is true, in the order of `allPairs`. -/
def hitPairs (refs : List ScatteredLine) (c : List Point) :
    List (ScatteredLine × Point × Point) :=
  (allPairs refs c).filter isHit

/-- The entry `r` is the one emitted for the pair `e`: the identifier of the reference segment
and the result of `findIntersectionPoint` on the pair. -/
def EntryOf (e : ScatteredLine × Point × Point) (r : Intersection) : Prop :=
  r.LineID = e.1.ID ∧
    findIntersectionPoint e.1.StartPoint e.1.EndPoint e.2.1 e.2.2 = some r.Intersect

/-- Every point of the polyline and of the reference set has at least two coordinates. -/
def WellFormed (c : List Point) (refs : List ScatteredLine) : Prop :=
  (∀ p ∈ c, 2 ≤ p.length) ∧ ∀ l ∈ refs, 2 ≤ l.StartPoint.length ∧ 2 ≤ l.EndPoint.length

/-! ## Proof-side helpers -/

/-- The value whose sign `getOrientation` classifies. -/
def crossVal (p q r : Pt) : ℚ :=
  (q.2 - p.2) * (r.1 - q.1) - (q.1 - p.1) * (r.2 - q.2)

/-- The label `getOrientation` gives to a value. -/
def orientCode (v : ℚ) : Int :=
  if v = 0 then 0 else if v > 0 then 1 else 2

/-- The test of `isOnSegment` on one coordinate, without `max` and `min`. -/
def Between (p q r : ℚ) : Prop :=
  (q ≤ p ∨ q ≤ r) ∧ (p ≤ q ∨ r ≤ q)

instance (p q r : ℚ) : Decidable (Between p q r) := by
  unfold Between; infer_instance

/-- The test of `isOnSegment` on both coordinates. -/
def InBox (p q r : Pt) : Prop :=
  Between p.1 q.1 r.1 ∧ Between p.2 q.2 r.2

instance (p q r : Pt) : Decidable (InBox p q r) := by
  unfold InBox; infer_instance

/-- The condition under which `doLinesIntersect` answers `true`. -/
def Crit (p1 p2 q1 q2 : Pt) : Prop :=
  (orientCode (crossVal p1 p2 q1) ≠ orientCode (crossVal p1 p2 q2) ∧
    orientCode (crossVal q1 q2 p1) ≠ orientCode (crossVal q1 q2 p2)) ∨
  (crossVal p1 p2 q1 = 0 ∧ InBox p1 q1 p2) ∨
  (crossVal p1 p2 q2 = 0 ∧ InBox p1 q2 p2) ∨
  (crossVal q1 q2 p1 = 0 ∧ InBox q1 p1 q2) ∨
  (crossVal q1 q2 p2 = 0 ∧ InBox q1 p2 q2)

instance (p1 p2 q1 q2 : Pt) : Decidable (Crit p1 p2 q1 q2) := by
  unfold Crit; infer_instance

/-- The denominator computed by `findIntersectionPoint`. -/
def denom (p1 p2 q1 q2 : Pt) : ℚ :=
  (p1.1 - p2.1) * (q1.2 - q2.2) - (p1.2 - p2.2) * (q1.1 - q2.1)

/-- The slice `findIntersectionPoint` returns on points of at least two coordinates. -/
def linePoint (p1 p2 q1 q2 : Pt) : Option (List ℚ) :=
  if denom p1 p2 q1 q2 = 0 then none
  else some
    [((p1.1 * p2.2 - p1.2 * p2.1) * (q1.1 - q2.1) - (p1.1 - p2.1) * (q1.1 * q2.2 - q1.2 * q2.1))
        / denom p1 p2 q1 q2,
     ((p1.1 * p2.2 - p1.2 * p2.1) * (q1.2 - q2.2) - (p1.2 - p2.2) * (q1.1 * q2.2 - q1.2 * q2.1))
        / denom p1 p2 q1 q2]

/-- The body of the inner loop of `findIntersections` on a given pair of segments. -/
def emitStep (acc : List Intersection) (e : ScatteredLine × Point × Point) :
    Option (List Intersection) := do
  if (← doLinesIntersect e.1.StartPoint e.1.EndPoint e.2.1 e.2.2) then
    return acc ++ [⟨e.1.ID, ← findIntersectionPoint e.1.StartPoint e.1.EndPoint e.2.1 e.2.2⟩]
  return acc

/-! ## The primitives on two-coordinate points -/

theorem le_goMax_iff (p q r : ℚ) : q ≤ max p r ↔ q ≤ p ∨ q ≤ r := by
  unfold max
  split_ifs with h
  · constructor
    · intro hq; exact Or.inl hq
    · rintro (hq | hq)
      · exact hq
      · exact le_trans hq (le_of_lt h)
  · constructor
    · intro hq; exact Or.inr hq
    · rintro (hq | hq)
      · exact le_trans hq (not_lt.mp h)
      · exact hq

theorem goMin_le_iff (p q r : ℚ) : q ≥ min p r ↔ p ≤ q ∨ r ≤ q := by
  unfold min
  split_ifs with h
  · constructor
    · intro hq; exact Or.inl hq
    · rintro (hq | hq)
      · exact hq
      · exact le_trans (le_of_lt h) hq
  · constructor
    · intro hq; exact Or.inr hq
    · rintro (hq | hq)
      · exact le_trans (not_lt.mp h) hq
      · exact hq

theorem orientCode_eq_zero (v : ℚ) : orientCode v = 0 ↔ v = 0 := by
  unfold orientCode
  split_ifs <;> simp_all

theorem orientCode_eq_one (v : ℚ) : orientCode v = 1 ↔ 0 < v := by
  unfold orientCode
  split_ifs <;> simp_all

theorem orientCode_eq_two (v : ℚ) : orientCode v = 2 ↔ v < 0 := by
  unfold orientCode
  split_ifs with h1 h2
  · simp [h1]
  · simp; exact le_of_lt h2
  · simp; exact lt_of_le_of_ne (not_lt.mp h2) h1

/-- On points of at least two coordinates `getOrientation` labels the sign of `crossVal`. -/
theorem getOrientation_cons (p q r : Pt) (tp tq tr : List ℚ) :
    getOrientation (p.1 :: p.2 :: tp) (q.1 :: q.2 :: tq) (r.1 :: r.2 :: tr)
      = some (orientCode (crossVal p q r)) := by
  simp only [getOrientation, orientCode, crossVal]
  simp
  split_ifs <;> simp_all

/-- On points of at least two coordinates `isOnSegment` is the bounding-box test. -/
theorem isOnSegment_cons (p q r : Pt) (tp tq tr : List ℚ) :
    isOnSegment (p.1 :: p.2 :: tp) (q.1 :: q.2 :: tq) (r.1 :: r.2 :: tr)
      = some (decide (InBox p q r)) := by
  simp only [isOnSegment, InBox, Between, ← le_goMax_iff, ← goMin_le_iff]
  simp
  split_ifs <;> simp_all

/-- On points of at least two coordinates `doLinesIntersect` decides `Crit`. -/
theorem doLinesIntersect_cons (p1 p2 q1 q2 : Pt) (t1 t2 t3 t4 : List ℚ) :
    doLinesIntersect (p1.1 :: p1.2 :: t1) (p2.1 :: p2.2 :: t2) (q1.1 :: q1.2 :: t3)
      (q2.1 :: q2.2 :: t4) = some (decide (Crit p1 p2 q1 q2)) := by
  simp only [doLinesIntersect, getOrientation_cons, isOnSegment_cons, Crit,
    ← orientCode_eq_zero]
  generalize orientCode (crossVal p1 p2 q1) = o1
  generalize orientCode (crossVal p1 p2 q2) = o2
  generalize orientCode (crossVal q1 q2 p1) = o3
  generalize orientCode (crossVal q1 q2 p2) = o4
  generalize hb1 : decide (InBox p1 q1 p2) = b1
  generalize hb2 : decide (InBox p1 q2 p2) = b2
  generalize hb3 : decide (InBox q1 p1 q2) = b3
  generalize hb4 : decide (InBox q1 p2 q2) = b4
  simp only [Option.bind_eq_bind, Option.some_bind, Option.pure_def, ne_eq]
  by_cases hg : ¬o1 = o2 ∧ ¬o3 = o4
  · simp [hg]
  simp only [hg, if_false, false_or]
  have step : ∀ (c : Prop) [Decidable c] (b : Bool) (rest : Option Bool) (R : Prop) [Decidable R],
      rest = some (decide R) →
      (if c then (if b = true then some true else rest) else rest)
        = some (decide ((c ∧ b = true) ∨ R)) := by
    intro c _ b rest R _ hrest
    subst hrest
    by_cases hc : c <;> cases b <;> simp [hc]
  have last : ∀ (c : Prop) [Decidable c] (b : Bool),
      (if c then (if b = true then some true else some false) else some false)
        = some (decide (c ∧ b = true)) := by
    intro c _ b
    by_cases hc : c <;> cases b <;> simp [hc]
  rw [step (o1 = 0) b1 _ _ (step (o2 = 0) b2 _ _ (step (o3 = 0) b3 _ _ (last (o4 = 0) b4)))]
  subst hb1 hb2 hb3 hb4
  simp only [decide_eq_true_eq]

/-! ## Plane geometry over the rationals -/

theorem between_lerp (a b t : ℚ) (h0 : 0 ≤ t) (h1 : t ≤ 1) : Between a (a + t * (b - a)) b := by
  unfold Between
  rcases le_total a b with h | h
  · exact ⟨Or.inr (by nlinarith), Or.inl (by nlinarith)⟩
  · exact ⟨Or.inl (by nlinarith), Or.inr (by nlinarith)⟩

theorem onClosedSegment_inBox {a b x : Pt} (h : OnClosedSegment a b x) : InBox a x b := by
  obtain ⟨t, h0, h1, hx, hy⟩ := h
  unfold InBox
  rw [hx, hy]
  exact ⟨between_lerp _ _ t h0 h1, between_lerp _ _ t h0 h1⟩

theorem onClosedSegment_left (a b : Pt) : OnClosedSegment a b a :=
  ⟨0, le_refl 0, zero_le_one, by ring, by ring⟩

theorem onClosedSegment_right (a b : Pt) : OnClosedSegment a b b :=
  ⟨1, zero_le_one, le_refl 1, by ring, by ring⟩

/-- On one coordinate: a value between `a` and `b ≠ a` is `a + t * (b - a)` for `t` in `[0,1]`. -/
theorem between_param {a b c : ℚ} (hab : a ≠ b) (h : Between a c b) :
    0 ≤ (c - a) / (b - a) ∧ (c - a) / (b - a) ≤ 1 := by
  unfold Between at h
  rcases lt_or_gt_of_ne hab with hlt | hgt
  · have hpos : 0 < b - a := by linarith
    have hc1 : a ≤ c := by rcases h.2 with h2 | h2 <;> linarith
    have hc2 : c ≤ b := by rcases h.1 with h2 | h2 <;> linarith
    exact ⟨div_nonneg (by linarith) (le_of_lt hpos), (div_le_one hpos).mpr (by linarith)⟩
  · have hneg : b - a < 0 := by linarith
    have hc1 : c ≤ a := by rcases h.1 with h2 | h2 <;> linarith
    have hc2 : b ≤ c := by rcases h.2 with h2 | h2 <;> linarith
    exact ⟨div_nonneg_of_nonpos (by linarith) (le_of_lt hneg),
      (div_le_one_of_neg hneg).mpr (by linarith)⟩

/-- A point that is collinear with `a`, `b` and inside their bounding box is on the segment. -/
theorem onClosedSegment_of_collinear_inBox {a b r : Pt} (hc : crossVal a b r = 0)
    (hb : InBox a r b) : OnClosedSegment a b r := by
  obtain ⟨x1, y1⟩ := a
  obtain ⟨x2, y2⟩ := b
  obtain ⟨x3, y3⟩ := r
  simp only [crossVal, InBox] at hc hb
  obtain ⟨hbx, hby⟩ := hb
  by_cases hx : x1 = x2
  · subst hx
    have hx3 : x3 = x1 := by
      unfold Between at hbx
      rcases hbx with ⟨h1 | h1, h2 | h2⟩ <;> linarith
    subst hx3
    by_cases hy : y1 = y2
    · subst hy
      have hy3 : y3 = y1 := by
        unfold Between at hby
        rcases hby with ⟨h1 | h1, h2 | h2⟩ <;> linarith
      subst hy3
      exact onClosedSegment_left _ _
    · obtain ⟨h0, h1⟩ := between_param hy hby
      have hne : y2 - y1 ≠ 0 := sub_ne_zero.mpr (Ne.symm hy)
      refine ⟨(y3 - y1) / (y2 - y1), h0, h1, by simp, ?_⟩
      show y3 = y1 + (y3 - y1) / (y2 - y1) * (y2 - y1)
      field_simp
  · obtain ⟨h0, h1⟩ := between_param hx hbx
    have hne : x2 - x1 ≠ 0 := sub_ne_zero.mpr (Ne.symm hx)
    refine ⟨(x3 - x1) / (x2 - x1), h0, h1, ?_, ?_⟩
    · show x3 = x1 + (x3 - x1) / (x2 - x1) * (x2 - x1)
      field_simp
    · show y3 = y1 + (x3 - x1) / (x2 - x1) * (y2 - y1)
      field_simp
      linear_combination (-1 : ℚ) * hc

/-- Two values that `getOrientation` labels differently bracket zero. -/
theorem ratio_mem {a b : ℚ} (h : orientCode a ≠ orientCode b) :
    a - b ≠ 0 ∧ 0 ≤ a / (a - b) ∧ a / (a - b) ≤ 1 := by
  have hne : a - b ≠ 0 := by
    intro hab
    apply h
    rw [sub_eq_zero.mp hab]
  refine ⟨hne, ?_⟩
  rcases lt_trichotomy a 0 with ha | ha | ha
  · have hb : 0 ≤ b := by
      by_contra hb
      push_neg at hb
      exact h (((orientCode_eq_two a).mpr ha).trans ((orientCode_eq_two b).mpr hb).symm)
    have hneg : a - b < 0 := by linarith
    exact ⟨div_nonneg_of_nonpos (le_of_lt ha) (le_of_lt hneg),
      (div_le_one_of_neg hneg).mpr (by linarith)⟩
  · subst ha
    simp
  · have hb : b ≤ 0 := by
      by_contra hb
      push_neg at hb
      exact h (((orientCode_eq_one a).mpr ha).trans ((orientCode_eq_one b).mpr hb).symm)
    have hpos : 0 < a - b := by linarith
    exact ⟨div_nonneg (le_of_lt ha) (le_of_lt hpos), (div_le_one hpos).mpr (by linarith)⟩

/-- The general case of `doLinesIntersect` is sound: the segments cross. -/
theorem segmentsMeet_of_general {p1 p2 q1 q2 : Pt}
    (h12 : orientCode (crossVal p1 p2 q1) ≠ orientCode (crossVal p1 p2 q2))
    (h34 : orientCode (crossVal q1 q2 p1) ≠ orientCode (crossVal q1 q2 p2)) :
    SegmentsMeet p1 p2 q1 q2 := by
  obtain ⟨hn12, t0, t1⟩ := ratio_mem h12
  obtain ⟨hn34, s0, s1⟩ := ratio_mem h34
  obtain ⟨x1, y1⟩ := p1
  obtain ⟨x2, y2⟩ := p2
  obtain ⟨x3, y3⟩ := q1
  obtain ⟨x4, y4⟩ := q2
  refine ⟨(x1 + crossVal (x3, y3) (x4, y4) (x1, y1) /
      (crossVal (x3, y3) (x4, y4) (x1, y1) - crossVal (x3, y3) (x4, y4) (x2, y2)) * (x2 - x1),
    y1 + crossVal (x3, y3) (x4, y4) (x1, y1) /
      (crossVal (x3, y3) (x4, y4) (x1, y1) - crossVal (x3, y3) (x4, y4) (x2, y2)) * (y2 - y1)),
    ⟨_, s0, s1, rfl, rfl⟩, ⟨_, t0, t1, ?_, ?_⟩⟩
  · simp only [crossVal] at hn12 hn34 ⊢
    field_simp
    ring
  · simp only [crossVal] at hn12 hn34 ⊢
    field_simp
    ring

/-- The test of `doLinesIntersect` is sound. -/
theorem segmentsMeet_of_crit {p1 p2 q1 q2 : Pt} (h : Crit p1 p2 q1 q2) :
    SegmentsMeet p1 p2 q1 q2 := by
  rcases h with ⟨h12, h34⟩ | ⟨hc, hb⟩ | ⟨hc, hb⟩ | ⟨hc, hb⟩ | ⟨hc, hb⟩
  · exact segmentsMeet_of_general h12 h34
  · exact ⟨q1, onClosedSegment_of_collinear_inBox hc hb, onClosedSegment_left _ _⟩
  · exact ⟨q2, onClosedSegment_of_collinear_inBox hc hb, onClosedSegment_right _ _⟩
  · exact ⟨p1, onClosedSegment_left _ _, onClosedSegment_of_collinear_inBox hc hb⟩
  · exact ⟨p2, onClosedSegment_right _ _, onClosedSegment_of_collinear_inBox hc hb⟩

/-- Two values with the same label whose convex combination vanishes are both zero. -/
theorem zero_of_same_code {a b t : ℚ} (h : orientCode a = orientCode b) (h0 : 0 ≤ t) (h1 : t ≤ 1)
    (hz : (1 - t) * a + t * b = 0) : a = 0 ∧ b = 0 := by
  have h1t : 0 ≤ 1 - t := by linarith
  rcases lt_trichotomy a 0 with ha | ha | ha
  · have hb : b < 0 := (orientCode_eq_two b).mp (h ▸ (orientCode_eq_two a).mpr ha)
    exfalso
    rcases le_total a b with hab | hab
    · nlinarith [mul_nonneg h1t (sub_nonneg.mpr hab)]
    · nlinarith [mul_nonneg h0 (sub_nonneg.mpr hab)]
  · exact ⟨ha, (orientCode_eq_zero b).mp (h ▸ (orientCode_eq_zero a).mpr ha)⟩
  · have hb : 0 < b := (orientCode_eq_one b).mp (h ▸ (orientCode_eq_one a).mpr ha)
    exfalso
    rcases le_total a b with hab | hab
    · nlinarith [mul_nonneg h0 (sub_nonneg.mpr hab)]
    · nlinarith [mul_nonneg h1t (sub_nonneg.mpr hab)]

/-- A point collinear with two distinct points is an affine combination of them. -/
theorem param_of_collinear {a b r : Pt} (hab : a ≠ b) (hc : crossVal a b r = 0) :
    ∃ k : ℚ, r.1 = a.1 + k * (b.1 - a.1) ∧ r.2 = a.2 + k * (b.2 - a.2) := by
  obtain ⟨x1, y1⟩ := a
  obtain ⟨x2, y2⟩ := b
  obtain ⟨x3, y3⟩ := r
  simp only [crossVal] at hc
  have hn : (x2 - x1) ^ 2 + (y2 - y1) ^ 2 ≠ 0 := by
    intro h0
    apply hab
    have hx : x2 - x1 = 0 := by nlinarith [sq_nonneg (x2 - x1), sq_nonneg (y2 - y1)]
    have hy : y2 - y1 = 0 := by nlinarith [sq_nonneg (x2 - x1), sq_nonneg (y2 - y1)]
    rw [show x1 = x2 by linarith, show y1 = y2 by linarith]
  refine ⟨((x3 - x1) * (x2 - x1) + (y3 - y1) * (y2 - y1)) / ((x2 - x1) ^ 2 + (y2 - y1) ^ 2),
    ?_, ?_⟩
  · show x3 = x1 + ((x3 - x1) * (x2 - x1) + (y3 - y1) * (y2 - y1)) /
      ((x2 - x1) ^ 2 + (y2 - y1) ^ 2) * (x2 - x1)
    field_simp
    linear_combination (y2 - y1) * hc
  · show y3 = y1 + ((x3 - x1) * (x2 - x1) + (y3 - y1) * (y2 - y1)) /
      ((x2 - x1) ^ 2 + (y2 - y1) ^ 2) * (y2 - y1)
    field_simp
    linear_combination (-(x2 - x1)) * hc

/-- Collinear segments that share a point: an endpoint of one is in the box of the other. -/
theorem inBox_of_collinear_meet {p1 p2 q1 q2 : Pt} (hm : SegmentsMeet p1 p2 q1 q2)
    (h1 : crossVal p1 p2 q1 = 0) (h2 : crossVal p1 p2 q2 = 0) :
    InBox p1 q1 p2 ∨ InBox p1 q2 p2 ∨ InBox q1 p1 q2 := by
  obtain ⟨x, ⟨s, s0, s1, hsx, hsy⟩, hq⟩ := hm
  by_cases hp : p1 = p2
  · subst hp
    have hx : x = p1 := by
      apply Prod.ext
      · rw [hsx]; ring
      · rw [hsy]; ring
    subst hx
    exact Or.inr (Or.inr (onClosedSegment_inBox hq))
  · obtain ⟨t, t0, t1, htx, hty⟩ := hq
    obtain ⟨a, hax, hay⟩ := param_of_collinear hp h1
    obtain ⟨b, hbx, hby⟩ := param_of_collinear hp h2
    have hs : s = a + t * (b - a) := by
      by_contra hne
      have hne2 : s - (a + t * (b - a)) ≠ 0 := sub_ne_zero.mpr hne
      apply hp
      have e1 : (s - (a + t * (b - a))) * (p2.1 - p1.1) = 0 := by
        rw [htx, hax, hbx] at hsx
        linear_combination -hsx
      have e2 : (s - (a + t * (b - a))) * (p2.2 - p1.2) = 0 := by
        rw [hty, hay, hby] at hsy
        linear_combination -hsy
      have f1 := (mul_eq_zero.mp e1).resolve_left hne2
      have f2 := (mul_eq_zero.mp e2).resolve_left hne2
      apply Prod.ext
      · linarith
      · linarith
    by_cases ha : 0 ≤ a ∧ a ≤ 1
    · exact Or.inl (onClosedSegment_inBox ⟨a, ha.1, ha.2, hax, hay⟩)
    by_cases hb : 0 ≤ b ∧ b ≤ 1
    · exact Or.inr (Or.inl (onClosedSegment_inBox ⟨b, hb.1, hb.2, hbx, hby⟩))
    have h1t : 0 ≤ 1 - t := by linarith
    have key : (a < 0 ∧ 1 < b) ∨ (1 < a ∧ b < 0) := by
      rcases lt_or_le a 0 with ha0 | ha0
      · rcases lt_or_le b 0 with hb0 | hb0
        · exfalso
          nlinarith [mul_nonneg h1t (le_of_lt (neg_pos.mpr ha0)),
            mul_nonneg t0 (le_of_lt (neg_pos.mpr hb0)), mul_pos (neg_pos.mpr ha0) (neg_pos.mpr hb0)]
        · rcases lt_or_le 1 b with hb1 | hb1
          · exact Or.inl ⟨ha0, hb1⟩
          · exact absurd ⟨hb0, hb1⟩ hb
      · have ha1 : 1 < a := by
          by_contra hcon
          exact ha ⟨ha0, not_lt.mp hcon⟩
        rcases lt_or_le b 0 with hb0 | hb0
        · exact Or.inr ⟨ha1, hb0⟩
        · have hb1 : 1 < b := by
            by_contra hcon
            exact hb ⟨hb0, not_lt.mp hcon⟩
          exfalso
          nlinarith [mul_nonneg h1t (le_of_lt (sub_pos.mpr ha1)),
            mul_nonneg t0 (le_of_lt (sub_pos.mpr hb1))]
    have hab : a - b ≠ 0 := by
      rcases key with ⟨k1, k2⟩ | ⟨k1, k2⟩
      · exact ne_of_lt (by linarith)
      · exact ne_of_gt (by linarith)
    have hr : 0 ≤ a / (a - b) ∧ a / (a - b) ≤ 1 := by
      rcases key with ⟨k1, k2⟩ | ⟨k1, k2⟩
      · have hneg : a - b < 0 := by linarith
        exact ⟨div_nonneg_of_nonpos (le_of_lt k1) (le_of_lt hneg),
          (div_le_one_of_neg hneg).mpr (by linarith)⟩
      · have hpos : 0 < a - b := by linarith
        exact ⟨div_nonneg (by linarith) (le_of_lt hpos), (div_le_one hpos).mpr (by linarith)⟩
    refine Or.inr (Or.inr (onClosedSegment_inBox ⟨a / (a - b), hr.1, hr.2, ?_, ?_⟩))
    · rw [hax, hbx]
      field_simp
      ring
    · rw [hay, hby]
      field_simp
      ring

/-- At a common point of the two segments the orientation values combine to zero. -/
theorem crossVal_combination {p1 p2 q1 q2 : Pt} {s t : ℚ}
    (hx : p1.1 + s * (p2.1 - p1.1) = q1.1 + t * (q2.1 - q1.1))
    (hy : p1.2 + s * (p2.2 - p1.2) = q1.2 + t * (q2.2 - q1.2)) :
    (1 - t) * crossVal p1 p2 q1 + t * crossVal p1 p2 q2 = 0 ∧
    (1 - s) * crossVal q1 q2 p1 + s * crossVal q1 q2 p2 = 0 := by
  constructor
  · simp only [crossVal]
    linear_combination (-(p2.2 - p1.2)) * hx + (p2.1 - p1.1) * hy
  · simp only [crossVal]
    linear_combination (q2.2 - q1.2) * hx - (q2.1 - q1.1) * hy

/-- The two differences of orientation values are opposite (both are the direction cross
product up to sign). -/
theorem crossVal_diff (p1 p2 q1 q2 : Pt) :
    crossVal q1 q2 p1 - crossVal q1 q2 p2 = -(crossVal p1 p2 q1 - crossVal p1 p2 q2) := by
  simp only [crossVal]
  ring

/-- The test of `doLinesIntersect` is complete: segments sharing a point pass it. -/
theorem crit_of_segmentsMeet {p1 p2 q1 q2 : Pt} (hm : SegmentsMeet p1 p2 q1 q2) :
    Crit p1 p2 q1 q2 := by
  have hm2 := hm
  obtain ⟨x, ⟨s, s0, s1, hsx, hsy⟩, ⟨t, t0, t1, htx, hty⟩⟩ := hm2
  obtain ⟨F1, F2⟩ := crossVal_combination (hsx.symm.trans htx) (hsy.symm.trans hty)
  have D := crossVal_diff p1 p2 q1 q2
  have hall : ¬(orientCode (crossVal p1 p2 q1) ≠ orientCode (crossVal p1 p2 q2) ∧
      orientCode (crossVal q1 q2 p1) ≠ orientCode (crossVal q1 q2 p2)) →
      crossVal p1 p2 q1 = 0 ∧ crossVal p1 p2 q2 = 0 ∧ crossVal q1 q2 p1 = 0 := by
    intro hg
    rw [not_and_or, not_not, not_not] at hg
    rcases hg with hg | hg
    · obtain ⟨e1, e2⟩ := zero_of_same_code hg t0 t1 F1
      rw [e1, e2] at D
      refine ⟨e1, e2, ?_⟩
      have e34 : crossVal q1 q2 p1 = crossVal q1 q2 p2 := by linarith
      rw [← e34] at F2
      linarith
    · obtain ⟨e3, e4⟩ := zero_of_same_code hg s0 s1 F2
      rw [e3, e4] at D
      have e12 : crossVal p1 p2 q1 = crossVal p1 p2 q2 := by linarith
      rw [← e12] at F1
      have e1 : crossVal p1 p2 q1 = 0 := by linarith
      exact ⟨e1, e12 ▸ e1, e3⟩
  by_cases hg : orientCode (crossVal p1 p2 q1) ≠ orientCode (crossVal p1 p2 q2) ∧
      orientCode (crossVal q1 q2 p1) ≠ orientCode (crossVal q1 q2 p2)
  · exact Or.inl hg
  · obtain ⟨e1, e2, e3⟩ := hall hg
    rcases inBox_of_collinear_meet hm e1 e2 with hb | hb | hb
    · exact Or.inr (Or.inl ⟨e1, hb⟩)
    · exact Or.inr (Or.inr (Or.inl ⟨e2, hb⟩))
    · exact Or.inr (Or.inr (Or.inr (Or.inl ⟨e3, hb⟩)))

theorem crit_iff_segmentsMeet (p1 p2 q1 q2 : Pt) :
    Crit p1 p2 q1 q2 ↔ SegmentsMeet p1 p2 q1 q2 :=
  ⟨segmentsMeet_of_crit, crit_of_segmentsMeet⟩

/-- On points of at least two coordinates `findIntersectionPoint` does not fail. -/
theorem findIntersectionPoint_cons (p1 p2 q1 q2 : Pt) (t1 t2 t3 t4 : List ℚ) :
    findIntersectionPoint (p1.1 :: p1.2 :: t1) (p2.1 :: p2.2 :: t2) (q1.1 :: q1.2 :: t3)
      (q2.1 :: q2.2 :: t4) = some (linePoint p1 p2 q1 q2) := by
  simp only [findIntersectionPoint, linePoint, denom]
  simp
  split_ifs <;> simp_all

/-- One reference segment against a polyline of two vertices. -/
theorem findIntersections_single (ty id : String) (p1 p2 q1 q2 : Pt) (t1 t2 t3 t4 : List ℚ) :
    findIntersections ⟨ty, [q1.1 :: q1.2 :: t3, q2.1 :: q2.2 :: t4]⟩
        [⟨id, p1.1 :: p1.2 :: t1, p2.1 :: p2.2 :: t2⟩]
      = some (if Crit p1 p2 q1 q2 then [⟨id, linePoint p1 p2 q1 q2⟩] else []) := by
  by_cases h : Crit p1 p2 q1 q2 <;>
    simp [findIntersections, scanLine, scanStep, List.range', doLinesIntersect_cons,
      findIntersectionPoint_cons, h]

/-! ## Further helper lemmas -/

theorem crossVal_eq_zero_iff_collinear3 (a b c : Pt) : crossVal a b c = 0 ↔ Collinear3 a b c := by
  unfold crossVal Collinear3
  constructor <;> intro h <;> linear_combination (-1 : ℚ) * h

theorem crossVal_sub_eq_parallel (p1 p2 q1 q2 : Pt) :
    crossVal p1 p2 q2 - crossVal p1 p2 q1
      = -((p2.1 - p1.1) * (q2.2 - q1.2) - (p2.2 - p1.2) * (q2.1 - q1.1)) := by
  unfold crossVal
  ring

theorem denom_eq_parallel (p1 p2 q1 q2 : Pt) :
    denom p1 p2 q1 q2 = (p2.1 - p1.1) * (q2.2 - q1.2) - (p2.2 - p1.2) * (q2.1 - q1.1) := by
  unfold denom
  ring

/-- Parallel segments that share a point are collinear: all four orientation values vanish. -/
theorem crossVal_zero_of_parallel_meet {p1 p2 q1 q2 : Pt} (hpar : Parallel p1 p2 q1 q2)
    (hm : SegmentsMeet p1 p2 q1 q2) :
    crossVal p1 p2 q1 = 0 ∧ crossVal p1 p2 q2 = 0 ∧ crossVal q1 q2 p1 = 0 ∧
      crossVal q1 q2 p2 = 0 := by
  obtain ⟨x, ⟨s, s0, s1, hsx, hsy⟩, ⟨t, t0, t1, htx, hty⟩⟩ := hm
  obtain ⟨F1, F2⟩ := crossVal_combination (hsx.symm.trans htx) (hsy.symm.trans hty)
  have D1 := crossVal_sub_eq_parallel p1 p2 q1 q2
  have D2 := crossVal_diff p1 p2 q1 q2
  unfold Parallel at hpar
  rw [hpar] at D1
  have e12 : crossVal p1 p2 q2 = crossVal p1 p2 q1 := by linarith
  have e34 : crossVal q1 q2 p2 = crossVal q1 q2 p1 := by linarith
  rw [e12] at F1
  rw [e34] at F2
  have e1 : crossVal p1 p2 q1 = 0 := by linarith
  have e3 : crossVal q1 q2 p1 = 0 := by linarith
  exact ⟨e1, e12.trans e1, e3, e34.trans e3⟩

/-- Segments on a common line are parallel. -/
theorem parallel_of_onCommonLine {p1 p2 q1 q2 : Pt} (h : OnCommonLine p1 p2 q1 q2) :
    Parallel p1 p2 q1 q2 := by
  obtain ⟨a, b, c, hab, h1, h2, h3, h4⟩ := h
  unfold Parallel
  rcases hab with ha | hb
  · have e : a * ((p2.1 - p1.1) * (q2.2 - q1.2) - (p2.2 - p1.2) * (q2.1 - q1.1)) = 0 := by
      linear_combination (q2.2 - q1.2) * h2 - (q2.2 - q1.2) * h1 - (p2.2 - p1.2) * h4
        + (p2.2 - p1.2) * h3
    exact (mul_eq_zero.mp e).resolve_left ha
  · have e : b * ((p2.1 - p1.1) * (q2.2 - q1.2) - (p2.2 - p1.2) * (q2.1 - q1.1)) = 0 := by
      linear_combination (p2.1 - p1.1) * h4 - (p2.1 - p1.1) * h3 - (q2.1 - q1.1) * h2
        + (q2.1 - q1.1) * h1
    exact (mul_eq_zero.mp e).resolve_left hb

/-- Segments whose bounding boxes are disjoint share no point. -/
theorem not_segmentsMeet_of_boxesDisjoint {p1 p2 q1 q2 : Pt} (h : BoxesDisjoint p1 p2 q1 q2) :
    ¬SegmentsMeet p1 p2 q1 q2 := by
  rintro ⟨x, hp, hq⟩
  obtain ⟨⟨hp1, hp2⟩, ⟨hp3, hp4⟩⟩ := onClosedSegment_inBox hp
  obtain ⟨⟨hq1, hq2⟩, ⟨hq3, hq4⟩⟩ := onClosedSegment_inBox hq
  unfold BoxesDisjoint at h
  simp only [max_lt_iff, lt_min_iff] at h
  rcases h with h | h | h | h
  · rcases hp1 with k | k <;> rcases hq2 with l | l <;> linarith [h.1.1, h.1.2, h.2.1, h.2.2]
  · rcases hp2 with k | k <;> rcases hq1 with l | l <;> linarith [h.1.1, h.1.2, h.2.1, h.2.2]
  · rcases hp3 with k | k <;> rcases hq4 with l | l <;> linarith [h.1.1, h.1.2, h.2.1, h.2.2]
  · rcases hp4 with k | k <;> rcases hq3 with l | l <;> linarith [h.1.1, h.1.2, h.2.1, h.2.2]

/-- A polyline with fewer than two vertices leaves the accumulator of the inner loop as is. -/
theorem scanLine_short (coords : List Point) (acc : List Intersection) (line : ScatteredLine)
    (h : coords.length < 2) : scanLine coords acc line = some acc := by
  have h0 : coords.length - 1 = 0 := by omega
  simp [scanLine, h0, List.range']

theorem getOrientation_zero_of_collinear3 (x1 y1 x2 y2 x y : ℚ)
    (h : Collinear3 (x1, y1) (x2, y2) (x, y)) :
    getOrientation [x1, y1] [x2, y2] [x, y] = some 0 := by
  have ho : getOrientation [x1, y1] [x2, y2] [x, y]
      = some (orientCode (crossVal (x1, y1) (x2, y2) (x, y))) :=
    getOrientation_cons (x1, y1) (x2, y2) (x, y) [] [] []
  rw [ho, (crossVal_eq_zero_iff_collinear3 _ _ _).mpr h]
  rfl

/-! ## The scan as one pass over all pairs -/

theorem scanStep_eq_emitStep (line : ScatteredLine) (coords : List Point)
    (acc : List Intersection) (i : Nat) (a b : Point) (ha : coords[i - 1]? = some a)
    (hb : coords[i]? = some b) : scanStep line coords acc i = emitStep acc (line, a, b) := by
  simp [scanStep, emitStep, ha, hb]

/-- The inner loop from index `pre.length + 1` on visits the consecutive pairs of the rest. -/
theorem foldlM_scanStep_eq (line : ScatteredLine) (rest : List Point) :
    ∀ (pre : List Point) (a : Point) (acc : List Intersection),
      (List.range' (pre.length + 1) rest.length).foldlM
          (scanStep line (pre ++ a :: rest)) acc
        = (((a :: rest).zip rest).map fun seg => (line, seg)).foldlM emitStep acc := by
  induction rest with
  | nil => intro pre a acc; rfl
  | cons b rest ih =>
    intro pre a acc
    have ha : (pre ++ a :: b :: rest)[pre.length + 1 - 1]? = some a := by
      rw [Nat.add_sub_cancel, List.getElem?_append_right (le_refl _)]
      simp
    have hb : (pre ++ a :: b :: rest)[pre.length + 1]? = some b := by
      rw [List.getElem?_append_right (by omega)]
      simp
    have hstep := scanStep_eq_emitStep line (pre ++ a :: b :: rest)
    have e := ih (pre ++ [a]) b
    simp only [List.length_append, List.length_singleton, List.append_assoc,
      List.singleton_append] at e
    simp only [List.length_cons, List.range'_succ, List.foldlM_cons, List.zip_cons_cons,
      List.map_cons]
    rw [hstep acc _ a b ha hb]
    congr 1
    funext acc2
    exact e acc2

theorem scanLine_eq (coords : List Point) (acc : List Intersection) (line : ScatteredLine) :
    scanLine coords acc line
      = ((querySegments coords).map fun seg => (line, seg)).foldlM emitStep acc := by
  unfold scanLine querySegments
  cases coords with
  | nil => rfl
  | cons a rest =>
    have e := foldlM_scanStep_eq line rest [] a acc
    simpa using e

/-- The nested loops are one pass over `allPairs`. -/
theorem findIntersections_eq_foldlM (linestring : Linestring)
    (scatteredLines : List ScatteredLine) :
    findIntersections linestring scatteredLines
      = (allPairs scatteredLines linestring.Coordinates).foldlM emitStep [] := by
  unfold findIntersections allPairs
  generalize ([] : List Intersection) = acc
  induction scatteredLines generalizing acc with
  | nil => rfl
  | cons line rest ih =>
    rw [List.foldlM_cons, List.flatMap_cons, List.foldlM_append, scanLine_eq]
    congr 1
    funext acc2
    exact ih acc2

theorem exists_cons_of_two_le (p : List ℚ) (h : 2 ≤ p.length) :
    ∃ (a : Pt) (t : List ℚ), p = a.1 :: a.2 :: t := by
  match p, h with
  | x :: y :: t, _ => exact ⟨(x, y), t, rfl⟩

/-- On a pair of well-formed segments the loop body does not fail. -/
theorem emitStep_wellFormed (acc : List Intersection) (e : ScatteredLine × Point × Point)
    (h1 : 2 ≤ e.1.StartPoint.length) (h2 : 2 ≤ e.1.EndPoint.length) (h3 : 2 ≤ e.2.1.length)
    (h4 : 2 ≤ e.2.2.length) :
    ∃ d : List Intersection, emitStep acc e = some (acc ++ d) ∧
      List.Forall₂ EntryOf (if isHit e then [e] else []) d := by
  obtain ⟨p1, t1, hp1⟩ := exists_cons_of_two_le _ h1
  obtain ⟨p2, t2, hp2⟩ := exists_cons_of_two_le _ h2
  obtain ⟨q1, t3, hq1⟩ := exists_cons_of_two_le _ h3
  obtain ⟨q2, t4, hq2⟩ := exists_cons_of_two_le _ h4
  have hd := doLinesIntersect_cons p1 p2 q1 q2 t1 t2 t3 t4
  have hf := findIntersectionPoint_cons p1 p2 q1 q2 t1 t2 t3 t4
  rw [← hp1, ← hp2, ← hq1, ← hq2] at hd hf
  by_cases hc : Crit p1 p2 q1 q2
  · refine ⟨[⟨e.1.ID, linePoint p1 p2 q1 q2⟩], ?_, ?_⟩
    · simp [emitStep, hd, hf, hc]
    · have hh : isHit e = true := by simp [isHit, hd, hc]
      rw [hh, if_pos rfl]
      exact List.Forall₂.cons ⟨rfl, hf⟩ List.Forall₂.nil
  · refine ⟨[], ?_, ?_⟩
    · simp [emitStep, hd, hc]
    · have hh : isHit e = false := by simp [isHit, hd, hc]
      rw [hh]
      exact List.Forall₂.nil

theorem foldlM_emitStep_wellFormed (es : List (ScatteredLine × Point × Point))
    (hwf : ∀ e ∈ es, 2 ≤ e.1.StartPoint.length ∧ 2 ≤ e.1.EndPoint.length ∧
      2 ≤ e.2.1.length ∧ 2 ≤ e.2.2.length) :
    ∀ acc : List Intersection, ∃ out : List Intersection,
      es.foldlM emitStep acc = some (acc ++ out) ∧ List.Forall₂ EntryOf (es.filter isHit) out := by
  induction es with
  | nil => intro acc; exact ⟨[], by simp, by simp⟩
  | cons e es ih =>
    intro acc
    obtain ⟨w1, w2, w3, w4⟩ := hwf e (List.mem_cons_self _ _)
    obtain ⟨d, hd, hrel⟩ := emitStep_wellFormed acc e w1 w2 w3 w4
    obtain ⟨out, ho, hrel2⟩ := ih (fun e2 he2 => hwf e2 (List.mem_cons_of_mem _ he2)) (acc ++ d)
    refine ⟨d ++ out, ?_, ?_⟩
    · rw [List.foldlM_cons, hd]
      simpa using ho
    · have hsplit : (e :: es).filter isHit = (if isHit e then [e] else []) ++ es.filter isHit := by
        by_cases hh : isHit e <;> simp [List.filter_cons, hh]
      rw [hsplit]
      exact List.rel_append hrel hrel2

theorem allPairs_wellFormed (c : List Point) (refs : List ScatteredLine)
    (h : WellFormed c refs) :
    ∀ e ∈ allPairs refs c, 2 ≤ e.1.StartPoint.length ∧ 2 ≤ e.1.EndPoint.length ∧
      2 ≤ e.2.1.length ∧ 2 ≤ e.2.2.length := by
  intro e he
  simp only [allPairs, querySegments, List.mem_flatMap, List.mem_map] at he
  obtain ⟨line, hline, seg, hseg, rfl⟩ := he
  obtain ⟨h1, h2⟩ := h.2 line hline
  have hz := List.of_mem_zip hseg
  exact ⟨h1, h2, h.1 _ hz.1, h.1 _ (List.mem_of_mem_tail hz.2)⟩

theorem length_allPairs (c : List Point) (refs : List ScatteredLine) :
    (allPairs refs c).length = refs.length * (c.length - 1) := by
  unfold allPairs querySegments
  induction refs with
  | nil => simp
  | cons line rest ih =>
    rw [List.flatMap_cons, List.length_append, ih]
    simp only [List.length_map, List.length_zip, List.length_tail, List.length_cons]
    rw [Nat.min_eq_right (Nat.sub_le _ _)]
    ring

/-! ## The segment predicate and the segments of Mathlib -/

theorem onClosedSegment_iff_mem_segment (a b x : Pt) :
    OnClosedSegment a b x ↔ x ∈ segment ℚ a b := by
  constructor
  · rintro ⟨t, h0, h1, hx, hy⟩
    refine ⟨1 - t, t, by linarith, h0, by ring, ?_⟩
    apply Prod.ext
    · simp only [Prod.fst_add, Prod.smul_fst, smul_eq_mul]
      rw [hx]; ring
    · simp only [Prod.snd_add, Prod.smul_snd, smul_eq_mul]
      rw [hy]; ring
  · rintro ⟨u, v, hu, hv, huv, rfl⟩
    refine ⟨v, hv, by linarith, ?_, ?_⟩
    · simp only [Prod.fst_add, Prod.smul_fst, smul_eq_mul]
      rw [show u = 1 - v by linarith]; ring
    · simp only [Prod.snd_add, Prod.smul_snd, smul_eq_mul]
      rw [show u = 1 - v by linarith]; ring

/-- The predicate `SegmentsMeet` says that the two closed segments of the plane intersect. -/
theorem segmentsMeet_iff_inter_nonempty (p1 p2 q1 q2 : Pt) :
    SegmentsMeet p1 p2 q1 q2 ↔ (segment ℚ p1 p2 ∩ segment ℚ q1 q2).Nonempty := by
  unfold SegmentsMeet Set.Nonempty
  simp only [Set.mem_inter_iff, onClosedSegment_iff_mem_segment]

/-! ## Symmetries -/

theorem denom_swap (p1 p2 q1 q2 : Pt) : denom q1 q2 p1 p2 = -denom p1 p2 q1 q2 := by
  unfold denom
  ring

theorem denom_rev_left (p1 p2 q1 q2 : Pt) : denom p2 p1 q1 q2 = -denom p1 p2 q1 q2 := by
  unfold denom
  ring

theorem denom_rev_right (p1 p2 q1 q2 : Pt) : denom p1 p2 q2 q1 = -denom p1 p2 q1 q2 := by
  unfold denom
  ring

/-- The point of `findIntersectionPoint` does not depend on which segment comes first. -/
theorem linePoint_swap (p1 p2 q1 q2 : Pt) : linePoint p1 p2 q1 q2 = linePoint q1 q2 p1 p2 := by
  unfold linePoint
  rw [denom_swap p1 p2 q1 q2]
  by_cases h : denom p1 p2 q1 q2 = 0
  · simp [h]
  · have hn : -denom p1 p2 q1 q2 ≠ 0 := neg_ne_zero.mpr h
    rw [if_neg h, if_neg hn]
    congr 2
    · rw [div_eq_div_iff h hn]; ring
    · congr 1
      rw [div_eq_div_iff h hn]; ring

/-- The point of `findIntersectionPoint` does not depend on the direction of the first
segment. -/
theorem linePoint_rev_left (p1 p2 q1 q2 : Pt) :
    linePoint p1 p2 q1 q2 = linePoint p2 p1 q1 q2 := by
  unfold linePoint
  rw [denom_rev_left p1 p2 q1 q2]
  by_cases h : denom p1 p2 q1 q2 = 0
  · simp [h]
  · have hn : -denom p1 p2 q1 q2 ≠ 0 := neg_ne_zero.mpr h
    rw [if_neg h, if_neg hn]
    congr 2
    · rw [div_eq_div_iff h hn]; ring
    · congr 1
      rw [div_eq_div_iff h hn]; ring

/-- The point of `findIntersectionPoint` does not depend on the direction of the second
segment. -/
theorem linePoint_rev_right (p1 p2 q1 q2 : Pt) :
    linePoint p1 p2 q1 q2 = linePoint p1 p2 q2 q1 := by
  unfold linePoint
  rw [denom_rev_right p1 p2 q1 q2]
  by_cases h : denom p1 p2 q1 q2 = 0
  · simp [h]
  · have hn : -denom p1 p2 q1 q2 ≠ 0 := neg_ne_zero.mpr h
    rw [if_neg h, if_neg hn]
    congr 2
    · rw [div_eq_div_iff h hn]; ring
    · congr 1
      rw [div_eq_div_iff h hn]; ring

/-- With a non-zero denominator a common point of the two segments is the point that
`findIntersectionPoint` computes. -/
theorem linePoint_eq_of_meet {p1 p2 q1 q2 : Pt} {s t : ℚ}
    (hx : p1.1 + s * (p2.1 - p1.1) = q1.1 + t * (q2.1 - q1.1))
    (hy : p1.2 + s * (p2.2 - p1.2) = q1.2 + t * (q2.2 - q1.2))
    (hden : denom p1 p2 q1 q2 ≠ 0) :
    linePoint p1 p2 q1 q2 = some [p1.1 + s * (p2.1 - p1.1), p1.2 + s * (p2.2 - p1.2)] := by
  have hS : s * denom p1 p2 q1 q2
      = (q1.1 - p1.1) * (q2.2 - q1.2) - (q1.2 - p1.2) * (q2.1 - q1.1) := by
    unfold denom
    linear_combination (q2.2 - q1.2) * hx - (q2.1 - q1.1) * hy
  unfold linePoint
  rw [if_neg hden]
  congr 2
  · rw [div_eq_iff hden]
    unfold denom at hS ⊢
    linear_combination (-(p2.1 - p1.1)) * hS
  · congr 1
    rw [div_eq_iff hden]
    unfold denom at hS ⊢
    linear_combination (-(p2.2 - p1.2)) * hS

/-- Whenever `doLinesIntersect` accepts and the denominator is non-zero, the computed point
lies on both closed segments. -/
theorem linePoint_on_segments {p1 p2 q1 q2 : Pt} (hc : Crit p1 p2 q1 q2)
    (hden : denom p1 p2 q1 q2 ≠ 0) :
    ∃ x y : ℚ, linePoint p1 p2 q1 q2 = some [x, y] ∧ OnClosedSegment p1 p2 (x, y) ∧
      OnClosedSegment q1 q2 (x, y) := by
  obtain ⟨z, ⟨s, s0, s1, hsx, hsy⟩, ⟨t, t0, t1, htx, hty⟩⟩ := segmentsMeet_of_crit hc
  have hx := hsx.symm.trans htx
  have hy := hsy.symm.trans hty
  refine ⟨p1.1 + s * (p2.1 - p1.1), p1.2 + s * (p2.2 - p1.2), linePoint_eq_of_meet hx hy hden,
    ⟨s, s0, s1, rfl, rfl⟩, ⟨t, t0, t1, hx, hy⟩⟩

/-- Points with all orientation values zero that share a point lie on one line. -/
theorem onCommonLine_of_crossVal_zero {p1 p2 q1 q2 : Pt} (hm : SegmentsMeet p1 p2 q1 q2)
    (h1 : crossVal p1 p2 q1 = 0) (h2 : crossVal p1 p2 q2 = 0) (h3 : crossVal q1 q2 p1 = 0)
    (h4 : crossVal q1 q2 p2 = 0) : OnCommonLine p1 p2 q1 q2 := by
  unfold crossVal at h1 h2 h3 h4
  by_cases hp : p1 = p2
  · by_cases hq : q1 = q2
    · subst hp hq
      obtain ⟨z, ⟨s, _, _, hsx, hsy⟩, ⟨t, _, _, htx, hty⟩⟩ := hm
      have ex : p1.1 = q1.1 := by
        have a1 : z.1 = p1.1 := by rw [hsx]; ring
        have a2 : z.1 = q1.1 := by rw [htx]; ring
        exact a1.symm.trans a2
      exact ⟨1, 0, p1.1, Or.inl one_ne_zero, by ring, by ring, by rw [ex]; ring,
        by rw [ex]; ring⟩
    · have hne : q2.2 - q1.2 ≠ 0 ∨ -(q2.1 - q1.1) ≠ 0 := by
        by_contra hcon
        rw [not_or, not_not, not_not] at hcon
        apply hq
        apply Prod.ext
        · linarith [hcon.2]
        · linarith [hcon.1]
      refine ⟨q2.2 - q1.2, -(q2.1 - q1.1), (q2.2 - q1.2) * q1.1 + -(q2.1 - q1.1) * q1.2, hne,
        ?_, ?_, rfl, by ring⟩
      · linear_combination h3
      · linear_combination h4
  · have hne : p2.2 - p1.2 ≠ 0 ∨ -(p2.1 - p1.1) ≠ 0 := by
      by_contra hcon
      rw [not_or, not_not, not_not] at hcon
      apply hp
      apply Prod.ext
      · linarith [hcon.2]
      · linarith [hcon.1]
    refine ⟨p2.2 - p1.2, -(p2.1 - p1.1), (p2.2 - p1.2) * p1.1 + -(p2.1 - p1.1) * p1.2, hne,
      rfl, by ring, ?_, ?_⟩
    · linear_combination h1
    · linear_combination h2

/-- Points on one line have all orientation values zero. -/
theorem collinear3_of_onCommonLine {p1 p2 q1 q2 : Pt} (h : OnCommonLine p1 p2 q1 q2) :
    Collinear3 p1 p2 q1 ∧ Collinear3 p1 p2 q2 ∧ Collinear3 q1 q2 p1 ∧ Collinear3 q1 q2 p2 := by
  obtain ⟨a, b, c, hab, h1, h2, h3, h4⟩ := h
  unfold Collinear3
  rcases hab with ha | hb
  · refine ⟨?_, ?_, ?_, ?_⟩
    · have e : a * ((p2.1 - p1.1) * (q1.2 - p1.2) - (p2.2 - p1.2) * (q1.1 - p1.1)) = 0 := by
        linear_combination (q1.2 - p1.2) * h2 - (q1.2 - p1.2) * h1 - (p2.2 - p1.2) * h3
          + (p2.2 - p1.2) * h1
      exact (mul_eq_zero.mp e).resolve_left ha
    · have e : a * ((p2.1 - p1.1) * (q2.2 - p1.2) - (p2.2 - p1.2) * (q2.1 - p1.1)) = 0 := by
        linear_combination (q2.2 - p1.2) * h2 - (q2.2 - p1.2) * h1 - (p2.2 - p1.2) * h4
          + (p2.2 - p1.2) * h1
      exact (mul_eq_zero.mp e).resolve_left ha
    · have e : a * ((q2.1 - q1.1) * (p1.2 - q1.2) - (q2.2 - q1.2) * (p1.1 - q1.1)) = 0 := by
        linear_combination (p1.2 - q1.2) * h4 - (p1.2 - q1.2) * h3 - (q2.2 - q1.2) * h1
          + (q2.2 - q1.2) * h3
      exact (mul_eq_zero.mp e).resolve_left ha
    · have e : a * ((q2.1 - q1.1) * (p2.2 - q1.2) - (q2.2 - q1.2) * (p2.1 - q1.1)) = 0 := by
        linear_combination (p2.2 - q1.2) * h4 - (p2.2 - q1.2) * h3 - (q2.2 - q1.2) * h2
          + (q2.2 - q1.2) * h3
      exact (mul_eq_zero.mp e).resolve_left ha
  · refine ⟨?_, ?_, ?_, ?_⟩
    · have e : b * ((p2.1 - p1.1) * (q1.2 - p1.2) - (p2.2 - p1.2) * (q1.1 - p1.1)) = 0 := by
        linear_combination (p2.1 - p1.1) * h3 - (p2.1 - p1.1) * h1 - (q1.1 - p1.1) * h2
          + (q1.1 - p1.1) * h1
      exact (mul_eq_zero.mp e).resolve_left hb
    · have e : b * ((p2.1 - p1.1) * (q2.2 - p1.2) - (p2.2 - p1.2) * (q2.1 - p1.1)) = 0 := by
        linear_combination (p2.1 - p1.1) * h4 - (p2.1 - p1.1) * h1 - (q2.1 - p1.1) * h2
          + (q2.1 - p1.1) * h1
      exact (mul_eq_zero.mp e).resolve_left hb
    · have e : b * ((q2.1 - q1.1) * (p1.2 - q1.2) - (q2.2 - q1.2) * (p1.1 - q1.1)) = 0 := by
        linear_combination (q2.1 - q1.1) * h1 - (q2.1 - q1.1) * h3 - (p1.1 - q1.1) * h4
          + (p1.1 - q1.1) * h3
      exact (mul_eq_zero.mp e).resolve_left hb
    · have e : b * ((q2.1 - q1.1) * (p2.2 - q1.2) - (q2.2 - q1.2) * (p2.1 - q1.1)) = 0 := by
        linear_combination (q2.1 - q1.1) * h2 - (q2.1 - q1.1) * h3 - (p2.1 - q1.1) * h4
          + (p2.1 - q1.1) * h3
      exact (mul_eq_zero.mp e).resolve_left hb

/-- Every entry of a list related elementwise to another has a partner there. -/
theorem exists_of_forall₂ {α β : Type} {R : α → β → Prop} {l : List α} {out : List β}
    (h : List.Forall₂ R l out) : ∀ r ∈ out, ∃ e ∈ l, R e r := by
  induction h with
  | nil => intro r hr; cases hr
  | cons hab _ ih =>
    intro r hr
    rcases List.mem_cons.mp hr with rfl | hr
    · exact ⟨_, List.mem_cons_self _ _, hab⟩
    · obtain ⟨e, he, hR⟩ := ih r hr
      exact ⟨e, List.mem_cons_of_mem _ he, hR⟩

/-- The slice `findIntersectionPoint` returns is `nil` or has exactly two coordinates, the
quotients by a non-zero denominator. -/
theorem linePoint_cases (p1 p2 q1 q2 : Pt) :
    linePoint p1 p2 q1 q2 = none ∨
      (denom p1 p2 q1 q2 ≠ 0 ∧ ∃ x y : ℚ, linePoint p1 p2 q1 q2 = some [x, y]) := by
  unfold linePoint
  by_cases h : denom p1 p2 q1 q2 = 0
  · exact Or.inl (if_pos h)
  · exact Or.inr ⟨h, _, _, if_neg h⟩

/-- Checking the divisions of `findIntersectionPoint` changes nothing: no division is reached
with a zero denominator. -/
theorem findIntersectionPointChecked_eq (p1 p2 q1 q2 : Point) :
    findIntersectionPointChecked p1 p2 q1 q2 = findIntersectionPoint p1 p2 q1 q2 := by
  unfold findIntersectionPointChecked findIntersectionPoint checkedDiv
  cases p1[0]? <;> cases p1[1]? <;> cases p2[0]? <;> cases p2[1]? <;> cases q1[0]? <;>
    cases q1[1]? <;> cases q2[0]? <;> cases q2[1]? <;> try rfl
  simp only [Option.bind_eq_bind, Option.some_bind, Option.pure_def]
  split_ifs <;> rfl

/-- The collinear branch of `doLinesIntersect` is sound on every triple: a middle point that
is labelled collinear and passes the bounding-box test lies on the closed segment. -/
theorem middle_point_on_segment (a b r : Pt)
    (ho : getOrientation [a.1, a.2] [b.1, b.2] [r.1, r.2] = some 0)
    (hs : isOnSegment [a.1, a.2] [r.1, r.2] [b.1, b.2] = some true) :
    Collinear3 a b r ∧ OnClosedSegment a b r := by
  rw [getOrientation_cons a b r [] [] []] at ho
  rw [isOnSegment_cons a r b [] [] []] at hs
  have hc : crossVal a b r = 0 := (orientCode_eq_zero _).mp (Option.some.inj ho)
  have hb : InBox a r b := of_decide_eq_true (Option.some.inj hs)
  exact ⟨(crossVal_eq_zero_iff_collinear3 a b r).mp hc, onClosedSegment_of_collinear_inBox hc hb⟩

/-! ## Binary64 values and the rationals -/

theorem F64.toRat_ofInt (n : Int) : F64.toRat (F64.ofInt n) = (n : ℚ) := by
  have hp : ((2 : ℚ) ^ 1074) ≠ 0 := pow_ne_zero _ (by norm_num)
  by_cases h : n < 0
  · have hn2 : (n.natAbs : ℚ) = -(n : ℚ) := by
      rw [Nat.cast_natAbs, Int.cast_abs, abs_of_neg (by exact_mod_cast h)]
    simp only [F64.ofInt, h, decide_True, F64.toRat, Nat.shiftLeft_eq, Nat.cast_mul, Nat.cast_pow,
      Nat.cast_ofNat, hn2]
    field_simp
  · have hn : (n.natAbs : ℚ) = (n : ℚ) := by
      rw [Nat.cast_natAbs, Int.cast_abs, abs_of_nonneg (by exact_mod_cast not_lt.mp h)]
    simp only [F64.ofInt, h, decide_False, F64.toRat, Nat.shiftLeft_eq, Nat.cast_mul, Nat.cast_pow,
      Nat.cast_ofNat, hn]
    field_simp

/-- A tie is rounded to the even neighbour: `2^53 + 1` is `2^53`. -/
theorem F64.round_tie_down :
    F64.ofInt 9007199254740992 - F64.ofInt (-1) = F64.ofInt 9007199254740992 := by
  decide

/-- A tie is rounded to the even neighbour: `2^53 + 3` is `2^53 + 4`. -/
theorem F64.round_tie_up :
    F64.ofInt 9007199254740994 - F64.ofInt (-1) = F64.ofInt 9007199254740996 := by
  decide

/-- A sum that reaches `2^1024` overflows to infinity. -/
theorem F64.overflow_to_inf : F64.pow2 1023 - F64.neg (F64.pow2 1023) = F64.inf false := by
  decide

/-- A product below half the smallest positive value underflows to zero. -/
theorem F64.underflow_to_zero : F64.fin false 1 * F64.fin false 1 = F64.fin false 0 := by
  decide

/-- Infinity times zero is not a number. -/
theorem F64.inf_mul_zero : F64.inf false * F64.ofInt 0 = F64.nan := by
  decide

/-- The quotient `1 / 3` is the binary64 value `6004799503160661 * 2^(-54)`. -/
theorem F64.one_div_three :
    F64.ofInt 1 / F64.ofInt 3 = F64.fin false (6004799503160661 <<< 1020) := by
  decide

/-! ## The scan over binary64 does not fail -/

/-- C1: over exact arithmetic and for all two-coordinate points, degenerate segments included,
`doLinesIntersect` returns `true` exactly when the closed segments `p1 p2` and `q1 q2` have a
point in common, and `false` exactly when they have none; so `findIntersections` emits an
entry for a (reference segment, query segment) pair exactly when the segments share a point. -/
theorem doLinesIntersect_iff_segmentsMeet (x1 y1 x2 y2 x3 y3 x4 y4 : ℚ) (ty id : String) :
    (doLinesIntersect [x1, y1] [x2, y2] [x3, y3] [x4, y4] = some true ↔
      SegmentsMeet (x1, y1) (x2, y2) (x3, y3) (x4, y4)) ∧
    (doLinesIntersect [x1, y1] [x2, y2] [x3, y3] [x4, y4] = some false ↔
      ¬SegmentsMeet (x1, y1) (x2, y2) (x3, y3) (x4, y4)) ∧
    ((∃ pt, findIntersections ⟨ty, [[x3, y3], [x4, y4]]⟩ [⟨id, [x1, y1], [x2, y2]⟩]
        = some [⟨id, pt⟩]) ↔ SegmentsMeet (x1, y1) (x2, y2) (x3, y3) (x4, y4)) ∧
    (findIntersections ⟨ty, [[x3, y3], [x4, y4]]⟩ [⟨id, [x1, y1], [x2, y2]⟩] = some [] ↔
      ¬SegmentsMeet (x1, y1) (x2, y2) (x3, y3) (x4, y4)) := by
  have hd : doLinesIntersect [x1, y1] [x2, y2] [x3, y3] [x4, y4]
      = some (decide (Crit (x1, y1) (x2, y2) (x3, y3) (x4, y4))) :=
    doLinesIntersect_cons (x1, y1) (x2, y2) (x3, y3) (x4, y4) [] [] [] []
  have hf : findIntersections ⟨ty, [[x3, y3], [x4, y4]]⟩ [⟨id, [x1, y1], [x2, y2]⟩]
      = some (if Crit (x1, y1) (x2, y2) (x3, y3) (x4, y4)
          then [⟨id, linePoint (x1, y1) (x2, y2) (x3, y3) (x4, y4)⟩] else []) :=
    findIntersections_single ty id (x1, y1) (x2, y2) (x3, y3) (x4, y4) [] [] [] []
  rw [hd, hf, ← crit_iff_segmentsMeet]
  by_cases hc : Crit (x1, y1) (x2, y2) (x3, y3) (x4, y4) <;> simp [hc]

/-- C2, as amended: over exact arithmetic, when the axis-aligned bounding boxes of a reference segment and a query segment do not
overlap, the segments share no point, `doLinesIntersect` returns `false` and
`findIntersections` emits nothing for the pair. -/
theorem boxesDisjoint_no_intersection (x1 y1 x2 y2 x3 y3 x4 y4 : ℚ) (ty id : String)
    (h : BoxesDisjoint (x1, y1) (x2, y2) (x3, y3) (x4, y4)) :
    ¬SegmentsMeet (x1, y1) (x2, y2) (x3, y3) (x4, y4) ∧
    doLinesIntersect [x1, y1] [x2, y2] [x3, y3] [x4, y4] = some false ∧
    findIntersections ⟨ty, [[x3, y3], [x4, y4]]⟩ [⟨id, [x1, y1], [x2, y2]⟩] = some [] := by
  have hn := not_segmentsMeet_of_boxesDisjoint h
  have hc : ¬Crit (x1, y1) (x2, y2) (x3, y3) (x4, y4) := fun hc => hn (segmentsMeet_of_crit hc)
  have hd : doLinesIntersect [x1, y1] [x2, y2] [x3, y3] [x4, y4]
      = some (decide (Crit (x1, y1) (x2, y2) (x3, y3) (x4, y4))) :=
    doLinesIntersect_cons (x1, y1) (x2, y2) (x3, y3) (x4, y4) [] [] [] []
  have hf : findIntersections ⟨ty, [[x3, y3], [x4, y4]]⟩ [⟨id, [x1, y1], [x2, y2]⟩]
      = some (if Crit (x1, y1) (x2, y2) (x3, y3) (x4, y4)
          then [⟨id, linePoint (x1, y1) (x2, y2) (x3, y3) (x4, y4)⟩] else []) :=
    findIntersections_single ty id (x1, y1) (x2, y2) (x3, y3) (x4, y4) [] [] [] []
  rw [hd, hf]
  simp [hc, hn]

/-- A concrete instance: two segments separated along the first coordinate. -/
theorem boxesDisjoint_no_intersection_witness :
    BoxesDisjoint (0, 0) (1, 1) (2, 0) (3, 1) ∧
    (¬SegmentsMeet (0, 0) (1, 1) (2, 0) (3, 1) ∧
      doLinesIntersect [0, 0] [1, 1] [2, 0] [3, 1] = some false ∧
      findIntersections ⟨"LineString", [[2, 0], [3, 1]]⟩ [⟨"A", [0, 0], [1, 1]⟩] = some []) :=
  have h : BoxesDisjoint (0, 0) (1, 1) (2, 0) (3, 1) := by
    unfold BoxesDisjoint
    norm_num
  ⟨h, boxesDisjoint_no_intersection 0 0 1 1 2 0 3 1 "LineString" "A" h⟩

/-- C4: whenever the denominator `(x1-x2)(y3-y4) - (y1-y2)(x3-x4)` is non-zero (in particular
when the segments cross at a single interior point), `findIntersectionPoint` returns a point
`(x, y)` that is collinear with `p1, p2` and collinear with `q1, q2`: both cross products are
exactly zero, and `getOrientation` labels both triples `0`. -/
theorem findIntersectionPoint_on_both_lines (x1 y1 x2 y2 x3 y3 x4 y4 : ℚ)
    (h : (x1 - x2) * (y3 - y4) - (y1 - y2) * (x3 - x4) ≠ 0) :
    ∃ x y : ℚ, findIntersectionPoint [x1, y1] [x2, y2] [x3, y3] [x4, y4] = some (some [x, y]) ∧
      Collinear3 (x1, y1) (x2, y2) (x, y) ∧ Collinear3 (x3, y3) (x4, y4) (x, y) ∧
      getOrientation [x1, y1] [x2, y2] [x, y] = some 0 ∧
      getOrientation [x3, y3] [x4, y4] [x, y] = some 0 := by
  have hf : findIntersectionPoint [x1, y1] [x2, y2] [x3, y3] [x4, y4]
      = some (linePoint (x1, y1) (x2, y2) (x3, y3) (x4, y4)) :=
    findIntersectionPoint_cons (x1, y1) (x2, y2) (x3, y3) (x4, y4) [] [] [] []
  have hden : denom (x1, y1) (x2, y2) (x3, y3) (x4, y4) ≠ 0 := h
  have hc1 : Collinear3 (x1, y1) (x2, y2)
      (((x1 * y2 - y1 * x2) * (x3 - x4) - (x1 - x2) * (x3 * y4 - y3 * x4))
          / ((x1 - x2) * (y3 - y4) - (y1 - y2) * (x3 - x4)),
        ((x1 * y2 - y1 * x2) * (y3 - y4) - (y1 - y2) * (x3 * y4 - y3 * x4))
          / ((x1 - x2) * (y3 - y4) - (y1 - y2) * (x3 - x4))) := by
    simp only [Collinear3]
    field_simp
    ring
  have hc2 : Collinear3 (x3, y3) (x4, y4)
      (((x1 * y2 - y1 * x2) * (x3 - x4) - (x1 - x2) * (x3 * y4 - y3 * x4))
          / ((x1 - x2) * (y3 - y4) - (y1 - y2) * (x3 - x4)),
        ((x1 * y2 - y1 * x2) * (y3 - y4) - (y1 - y2) * (x3 * y4 - y3 * x4))
          / ((x1 - x2) * (y3 - y4) - (y1 - y2) * (x3 - x4))) := by
    simp only [Collinear3]
    field_simp
    ring
  refine ⟨_, _, ?_, hc1, hc2, getOrientation_zero_of_collinear3 _ _ _ _ _ _ hc1,
    getOrientation_zero_of_collinear3 _ _ _ _ _ _ hc2⟩
  rw [hf, linePoint, if_neg hden]
  rfl

/-- A concrete instance: the diagonal and the anti-diagonal of a square. -/
theorem findIntersectionPoint_on_both_lines_witness :
    ((0 : ℚ) - 2) * (2 - 0) - (0 - 2) * (0 - 2) ≠ 0 ∧
    ∃ x y : ℚ, findIntersectionPoint [0, 0] [2, 2] [0, 2] [2, 0] = some (some [x, y]) ∧
      Collinear3 (0, 0) (2, 2) (x, y) ∧ Collinear3 (0, 2) (2, 0) (x, y) ∧
      getOrientation [0, 0] [2, 2] [x, y] = some 0 ∧
      getOrientation [0, 2] [2, 0] [x, y] = some 0 :=
  ⟨by norm_num, findIntersectionPoint_on_both_lines 0 0 2 2 0 2 2 0 (by norm_num)⟩

/-- C5, as amended: over exact arithmetic, for two parallel segments (direction cross product zero) that are not collinear (an
endpoint of one is off the line through the other), `doLinesIntersect` returns `false` and
`findIntersections` reports nothing for the pair. Non-degeneracy is not needed. -/
theorem parallel_not_collinear_no_intersection (x1 y1 x2 y2 x3 y3 x4 y4 : ℚ) (ty id : String)
    (hpar : Parallel (x1, y1) (x2, y2) (x3, y3) (x4, y4))
    (hoff : ¬Collinear3 (x1, y1) (x2, y2) (x3, y3) ∨ ¬Collinear3 (x1, y1) (x2, y2) (x4, y4) ∨
      ¬Collinear3 (x3, y3) (x4, y4) (x1, y1) ∨ ¬Collinear3 (x3, y3) (x4, y4) (x2, y2)) :
    doLinesIntersect [x1, y1] [x2, y2] [x3, y3] [x4, y4] = some false ∧
    findIntersections ⟨ty, [[x3, y3], [x4, y4]]⟩ [⟨id, [x1, y1], [x2, y2]⟩] = some [] := by
  have hc : ¬Crit (x1, y1) (x2, y2) (x3, y3) (x4, y4) := by
    intro hc
    obtain ⟨e1, e2, e3, e4⟩ := crossVal_zero_of_parallel_meet hpar (segmentsMeet_of_crit hc)
    rw [crossVal_eq_zero_iff_collinear3] at e1 e2 e3 e4
    rcases hoff with k | k | k | k
    · exact k e1
    · exact k e2
    · exact k e3
    · exact k e4
  have hd : doLinesIntersect [x1, y1] [x2, y2] [x3, y3] [x4, y4]
      = some (decide (Crit (x1, y1) (x2, y2) (x3, y3) (x4, y4))) :=
    doLinesIntersect_cons (x1, y1) (x2, y2) (x3, y3) (x4, y4) [] [] [] []
  have hf : findIntersections ⟨ty, [[x3, y3], [x4, y4]]⟩ [⟨id, [x1, y1], [x2, y2]⟩]
      = some (if Crit (x1, y1) (x2, y2) (x3, y3) (x4, y4)
          then [⟨id, linePoint (x1, y1) (x2, y2) (x3, y3) (x4, y4)⟩] else []) :=
    findIntersections_single ty id (x1, y1) (x2, y2) (x3, y3) (x4, y4) [] [] [] []
  rw [hd, hf]
  simp [hc]

/-- A concrete instance: two horizontal segments at different heights. -/
theorem parallel_not_collinear_no_intersection_witness :
    Parallel (0, 0) (2, 0) (1, 1) (3, 1) ∧
    (¬Collinear3 (0, 0) (2, 0) (1, 1) ∨ ¬Collinear3 (0, 0) (2, 0) (3, 1) ∨
      ¬Collinear3 (1, 1) (3, 1) (0, 0) ∨ ¬Collinear3 (1, 1) (3, 1) (2, 0)) ∧
    (doLinesIntersect [0, 0] [2, 0] [1, 1] [3, 1] = some false ∧
      findIntersections ⟨"LineString", [[1, 1], [3, 1]]⟩ [⟨"A", [0, 0], [2, 0]⟩] = some []) :=
  have hpar : Parallel (0, 0) (2, 0) (1, 1) (3, 1) := by
    unfold Parallel
    norm_num
  have hoff : ¬Collinear3 (0, 0) (2, 0) (1, 1) ∨ ¬Collinear3 (0, 0) (2, 0) (3, 1) ∨
      ¬Collinear3 (1, 1) (3, 1) (0, 0) ∨ ¬Collinear3 (1, 1) (3, 1) (2, 0) := by
    left
    unfold Collinear3
    norm_num
  ⟨hpar, hoff, parallel_not_collinear_no_intersection 0 0 2 0 1 1 3 1 "LineString" "A" hpar hoff⟩

/-- C6, as amended: over exact arithmetic, for two collinear segments (all four endpoints on one line) that share a point,
`doLinesIntersect` is `true`, `findIntersectionPoint` returns `nil` because the denominator
is `0`, and `findIntersections` emits one entry for the pair whose point is `nil`. -/
theorem collinear_overlap_nil_point (x1 y1 x2 y2 x3 y3 x4 y4 : ℚ) (ty id : String)
    (hline : OnCommonLine (x1, y1) (x2, y2) (x3, y3) (x4, y4))
    (hmeet : SegmentsMeet (x1, y1) (x2, y2) (x3, y3) (x4, y4)) :
    doLinesIntersect [x1, y1] [x2, y2] [x3, y3] [x4, y4] = some true ∧
    (x1 - x2) * (y3 - y4) - (y1 - y2) * (x3 - x4) = 0 ∧
    findIntersectionPoint [x1, y1] [x2, y2] [x3, y3] [x4, y4] = some none ∧
    findIntersections ⟨ty, [[x3, y3], [x4, y4]]⟩ [⟨id, [x1, y1], [x2, y2]⟩]
      = some [⟨id, none⟩] := by
  have hc : Crit (x1, y1) (x2, y2) (x3, y3) (x4, y4) := crit_of_segmentsMeet hmeet
  have hden : denom (x1, y1) (x2, y2) (x3, y3) (x4, y4) = 0 := by
    rw [denom_eq_parallel]
    exact parallel_of_onCommonLine hline
  have hd : doLinesIntersect [x1, y1] [x2, y2] [x3, y3] [x4, y4]
      = some (decide (Crit (x1, y1) (x2, y2) (x3, y3) (x4, y4))) :=
    doLinesIntersect_cons (x1, y1) (x2, y2) (x3, y3) (x4, y4) [] [] [] []
  have hp : findIntersectionPoint [x1, y1] [x2, y2] [x3, y3] [x4, y4]
      = some (linePoint (x1, y1) (x2, y2) (x3, y3) (x4, y4)) :=
    findIntersectionPoint_cons (x1, y1) (x2, y2) (x3, y3) (x4, y4) [] [] [] []
  have hf : findIntersections ⟨ty, [[x3, y3], [x4, y4]]⟩ [⟨id, [x1, y1], [x2, y2]⟩]
      = some (if Crit (x1, y1) (x2, y2) (x3, y3) (x4, y4)
          then [⟨id, linePoint (x1, y1) (x2, y2) (x3, y3) (x4, y4)⟩] else []) :=
    findIntersections_single ty id (x1, y1) (x2, y2) (x3, y3) (x4, y4) [] [] [] []
  have hl : linePoint (x1, y1) (x2, y2) (x3, y3) (x4, y4) = none := by
    rw [linePoint, if_pos hden]
  rw [hd, hp, hf, hl]
  refine ⟨by simp [hc], hden, rfl, by simp [hc]⟩

/-- A concrete instance: two overlapping segments of the main diagonal. -/
theorem collinear_overlap_nil_point_witness :
    OnCommonLine (0, 0) (2, 2) (1, 1) (3, 3) ∧ SegmentsMeet (0, 0) (2, 2) (1, 1) (3, 3) ∧
    (doLinesIntersect [0, 0] [2, 2] [1, 1] [3, 3] = some true ∧
      ((0 : ℚ) - 2) * (1 - 3) - (0 - 2) * (1 - 3) = 0 ∧
      findIntersectionPoint [0, 0] [2, 2] [1, 1] [3, 3] = some none ∧
      findIntersections ⟨"LineString", [[1, 1], [3, 3]]⟩ [⟨"A", [0, 0], [2, 2]⟩]
        = some [⟨"A", none⟩]) :=
  have hline : OnCommonLine (0, 0) (2, 2) (1, 1) (3, 3) :=
    ⟨1, -1, 0, Or.inl one_ne_zero, by norm_num, by norm_num, by norm_num, by norm_num⟩
  have hmeet : SegmentsMeet (0, 0) (2, 2) (1, 1) (3, 3) :=
    ⟨(1, 1), ⟨1 / 2, by norm_num, by norm_num, by norm_num, by norm_num⟩,
      ⟨0, by norm_num, by norm_num, by norm_num, by norm_num⟩⟩
  ⟨hline, hmeet, collinear_overlap_nil_point 0 0 2 2 1 1 3 3 "LineString" "A" hline hmeet⟩

/-- C7: with the reference set `[{id "A", startPoint (0,0), endPoint (2,2)}]` and the query
linestring `[(0,2), (2,0)]`, `findIntersections` returns exactly one result, with lineID `"A"`
and intersection point `(1, 1)`. -/
theorem scenario_anti_diagonal (ty : String) :
    findIntersections ⟨ty, [[0, 2], [2, 0]]⟩ [⟨"A", [0, 0], [2, 2]⟩]
      = some [⟨"A", some [1, 1]⟩] := by
  have hf := findIntersections_single ty "A" (0, 0) (2, 2) (0, 2) (2, 0) [] [] [] []
  have hc : Crit (0, 0) (2, 2) (0, 2) (2, 0) := by
    left
    simp only [crossVal, orientCode]
    norm_num
  have hl : linePoint (0, 0) (2, 2) (0, 2) (2, 0) = some [1, 1] := by
    simp only [linePoint, denom]
    norm_num
  rw [if_pos hc, hl] at hf
  exact hf

/-- C8: for every query polyline with fewer than two vertices and every reference set, of any
content (points with too few coordinates included), `findIntersections` returns the empty
sequence. -/
theorem short_polyline_empty (linestring : Linestring) (scatteredLines : List ScatteredLine)
    (h : linestring.Coordinates.length < 2) :
    findIntersections linestring scatteredLines = some [] := by
  unfold findIntersections
  generalize ([] : List Intersection) = acc
  induction scatteredLines with
  | nil => rfl
  | cons line rest ih =>
    rw [List.foldlM_cons, scanLine_short _ _ _ h]
    exact ih

/-- A concrete instance: one vertex, and a reference segment whose points are too short. -/
theorem short_polyline_empty_witness :
    (Linestring.mk "LineString" [[0, 0]]).Coordinates.length < 2 ∧
    findIntersections ⟨"LineString", [[0, 0]]⟩ [⟨"A", [0], []⟩, ⟨"B", [1, 1], [2, 2]⟩] = some [] :=
  ⟨by decide, short_polyline_empty ⟨"LineString", [[0, 0]]⟩ _ (by decide)⟩

/-- C9: on a polyline and a reference list whose points all have at least two coordinates,
`findIntersections` returns the list obtained by going through the reference segments in
input order (outer) and the query segments `(c[i-1], c[i])`, `i = 1 .. n-1`, in increasing
order (inner), with one entry (reference identifier, `findIntersectionPoint` of the pair) for
each pair on which `doLinesIntersect` is true: nothing is deduplicated, sorted or dropped, the
length is the number of intersecting pairs and is at most `|refs| * (n - 1)`. -/
theorem findIntersections_order (linestring : Linestring) (scatteredLines : List ScatteredLine)
    (h : WellFormed linestring.Coordinates scatteredLines) :
    ∃ out : List Intersection,
      findIntersections linestring scatteredLines = some out ∧
      List.Forall₂ EntryOf (hitPairs scatteredLines linestring.Coordinates) out ∧
      out.length = (hitPairs scatteredLines linestring.Coordinates).length ∧
      out.length ≤ scatteredLines.length * (linestring.Coordinates.length - 1) := by
  obtain ⟨out, ho, hrel⟩ := foldlM_emitStep_wellFormed _
    (allPairs_wellFormed linestring.Coordinates scatteredLines h) []
  refine ⟨out, ?_, hrel, hrel.length_eq.symm, ?_⟩
  · rw [findIntersections_eq_foldlM, ho]
    rfl
  · rw [← hrel.length_eq, ← length_allPairs]
    exact List.length_filter_le _ _

/-- A concrete instance: two reference segments against a polyline of four vertices. -/
theorem findIntersections_order_witness :
    WellFormed [[0, 0], [2, 2], [0, 3], [3, 0]] [⟨"A", [0, 0], [2, 2]⟩, ⟨"B", [1, 0], [1, 5]⟩] ∧
    ∃ out : List Intersection,
      findIntersections ⟨"LineString", [[0, 0], [2, 2], [0, 3], [3, 0]]⟩
        [⟨"A", [0, 0], [2, 2]⟩, ⟨"B", [1, 0], [1, 5]⟩] = some out ∧
      List.Forall₂ EntryOf (hitPairs [⟨"A", [0, 0], [2, 2]⟩, ⟨"B", [1, 0], [1, 5]⟩]
        [[0, 0], [2, 2], [0, 3], [3, 0]]) out ∧
      out.length = (hitPairs [⟨"A", [0, 0], [2, 2]⟩, ⟨"B", [1, 0], [1, 5]⟩]
        [[0, 0], [2, 2], [0, 3], [3, 0]]).length ∧
      out.length ≤ [(⟨"A", [0, 0], [2, 2]⟩ : ScatteredLine), ⟨"B", [1, 0], [1, 5]⟩].length *
        ([([0, 0] : Point), [2, 2], [0, 3], [3, 0]].length - 1) :=
  have hwf : WellFormed [[0, 0], [2, 2], [0, 3], [3, 0]]
      [⟨"A", [0, 0], [2, 2]⟩, ⟨"B", [1, 0], [1, 5]⟩] := by
    simp [WellFormed]
  ⟨hwf, findIntersections_order ⟨"LineString", [[0, 0], [2, 2], [0, 3], [3, 0]]⟩
    [⟨"A", [0, 0], [2, 2]⟩, ⟨"B", [1, 0], [1, 5]⟩] hwf⟩

/-- The exact reading of the `nil` test: over exact arithmetic `findIntersectionPoint`
returns the `nil` point if and only if the denominator
`(x1-x2)(y3-y4) - (y1-y2)(x3-x4)` is `0`, whatever `doLinesIntersect` says of the pair;
otherwise it returns a point of exactly two coordinates, the Cramer numerators divided by that
denominator. -/
theorem findIntersectionPoint_nil_iff (x1 y1 x2 y2 x3 y3 x4 y4 : ℚ) :
    (findIntersectionPoint [x1, y1] [x2, y2] [x3, y3] [x4, y4] = some none ↔
      (x1 - x2) * (y3 - y4) - (y1 - y2) * (x3 - x4) = 0) ∧
    findIntersectionPoint [x1, y1] [x2, y2] [x3, y3] [x4, y4]
      = some (if (x1 - x2) * (y3 - y4) - (y1 - y2) * (x3 - x4) = 0 then none
          else some
            [((x1 * y2 - y1 * x2) * (x3 - x4) - (x1 - x2) * (x3 * y4 - y3 * x4))
                / ((x1 - x2) * (y3 - y4) - (y1 - y2) * (x3 - x4)),
             ((x1 * y2 - y1 * x2) * (y3 - y4) - (y1 - y2) * (x3 * y4 - y3 * x4))
                / ((x1 - x2) * (y3 - y4) - (y1 - y2) * (x3 - x4))]) := by
  have hf : findIntersectionPoint [x1, y1] [x2, y2] [x3, y3] [x4, y4]
      = some (linePoint (x1, y1) (x2, y2) (x3, y3) (x4, y4)) :=
    findIntersectionPoint_cons (x1, y1) (x2, y2) (x3, y3) (x4, y4) [] [] [] []
  refine ⟨?_, hf⟩
  rw [hf]
  simp only [linePoint, denom]
  by_cases h : (x1 - x2) * (y3 - y4) - (y1 - y2) * (x3 - x4) = 0
  · simp [h]
  · simp [h]

/-- The exact reading of totality: over exact arithmetic, on a polyline and a reference set
whose points all have at least two coordinates, `findIntersections` returns a result sequence: no index is out of range, every emitted point
is `nil` or has exactly two coordinates, and on every pair `doLinesIntersect` and
`findIntersectionPoint` return, the latter also when its divisions are checked, so that no
division is reached with a zero denominator. -/
theorem findIntersections_total (linestring : Linestring) (scatteredLines : List ScatteredLine)
    (h : WellFormed linestring.Coordinates scatteredLines) :
    (∃ out : List Intersection, findIntersections linestring scatteredLines = some out ∧
      ∀ r ∈ out, r.Intersect = none ∨ ∃ x y : ℚ, r.Intersect = some [x, y]) ∧
    ∀ e ∈ allPairs scatteredLines linestring.Coordinates,
      doLinesIntersect e.1.StartPoint e.1.EndPoint e.2.1 e.2.2 ≠ none ∧
      findIntersectionPoint e.1.StartPoint e.1.EndPoint e.2.1 e.2.2 ≠ none ∧
      findIntersectionPointChecked e.1.StartPoint e.1.EndPoint e.2.1 e.2.2
        = findIntersectionPoint e.1.StartPoint e.1.EndPoint e.2.1 e.2.2 := by
  have hwf := allPairs_wellFormed linestring.Coordinates scatteredLines h
  have key : ∀ e ∈ allPairs scatteredLines linestring.Coordinates,
      ∃ p1 p2 q1 q2 : Pt,
        doLinesIntersect e.1.StartPoint e.1.EndPoint e.2.1 e.2.2
          = some (decide (Crit p1 p2 q1 q2)) ∧
        findIntersectionPoint e.1.StartPoint e.1.EndPoint e.2.1 e.2.2
          = some (linePoint p1 p2 q1 q2) := by
    intro e he
    obtain ⟨w1, w2, w3, w4⟩ := hwf e he
    obtain ⟨p1, t1, hp1⟩ := exists_cons_of_two_le _ w1
    obtain ⟨p2, t2, hp2⟩ := exists_cons_of_two_le _ w2
    obtain ⟨q1, t3, hq1⟩ := exists_cons_of_two_le _ w3
    obtain ⟨q2, t4, hq2⟩ := exists_cons_of_two_le _ w4
    refine ⟨p1, p2, q1, q2, ?_, ?_⟩
    · rw [hp1, hp2, hq1, hq2]
      exact doLinesIntersect_cons p1 p2 q1 q2 t1 t2 t3 t4
    · rw [hp1, hp2, hq1, hq2]
      exact findIntersectionPoint_cons p1 p2 q1 q2 t1 t2 t3 t4
  constructor
  · obtain ⟨out, ho, hrel⟩ := foldlM_emitStep_wellFormed _ hwf []
    refine ⟨out, ?_, ?_⟩
    · rw [findIntersections_eq_foldlM, ho]
      rfl
    · intro r hr
      obtain ⟨e, he, _, hpt⟩ := exists_of_forall₂ hrel r hr
      obtain ⟨p1, p2, q1, q2, _, hf⟩ := key e (List.mem_of_mem_filter he)
      rw [hf] at hpt
      have hpt2 : linePoint p1 p2 q1 q2 = r.Intersect := Option.some.inj hpt
      rcases linePoint_cases p1 p2 q1 q2 with hn | ⟨_, x, y, hxy⟩
      · exact Or.inl (hpt2 ▸ hn)
      · exact Or.inr ⟨x, y, hpt2 ▸ hxy⟩
  · intro e he
    obtain ⟨p1, p2, q1, q2, hd, hf⟩ := key e he
    refine ⟨?_, ?_, findIntersectionPointChecked_eq _ _ _ _⟩
    · rw [hd]; exact Option.some_ne_none _
    · rw [hf]; exact Option.some_ne_none _

/-- A concrete instance of the exact reading: two reference segments against a polyline of
four vertices, one crossing with a `nil` point among the results. -/
theorem findIntersections_total_witness :
    WellFormed [[0, 0], [2, 2], [0, 3], [3, 0]] [⟨"A", [0, 0], [2, 2]⟩, ⟨"B", [1, 0], [1, 5]⟩] ∧
    ((∃ out : List Intersection,
        findIntersections ⟨"LineString", [[0, 0], [2, 2], [0, 3], [3, 0]]⟩
          [⟨"A", [0, 0], [2, 2]⟩, ⟨"B", [1, 0], [1, 5]⟩] = some out ∧
        ∀ r ∈ out, r.Intersect = none ∨ ∃ x y : ℚ, r.Intersect = some [x, y]) ∧
      ∀ e ∈ allPairs [⟨"A", [0, 0], [2, 2]⟩, ⟨"B", [1, 0], [1, 5]⟩]
          [[0, 0], [2, 2], [0, 3], [3, 0]],
        doLinesIntersect e.1.StartPoint e.1.EndPoint e.2.1 e.2.2 ≠ none ∧
        findIntersectionPoint e.1.StartPoint e.1.EndPoint e.2.1 e.2.2 ≠ none ∧
        findIntersectionPointChecked e.1.StartPoint e.1.EndPoint e.2.1 e.2.2
          = findIntersectionPoint e.1.StartPoint e.1.EndPoint e.2.1 e.2.2) :=
  have hwf : WellFormed [[0, 0], [2, 2], [0, 3], [3, 0]]
      [⟨"A", [0, 0], [2, 2]⟩, ⟨"B", [1, 0], [1, 5]⟩] := by
    simp [WellFormed]
  ⟨hwf, findIntersections_total ⟨"LineString", [[0, 0], [2, 2], [0, 3], [3, 0]]⟩
    [⟨"A", [0, 0], [2, 2]⟩, ⟨"B", [1, 0], [1, 5]⟩] hwf⟩

/-- C13, as the code has it: a POST request whose Authorization header is absent or differs
from the expected literal is answered with status 401 and the plain-text body
`Unauthorized` followed by a newline (the message given to `http.Error`, not a result array),
and neither the request body is parsed nor the reference set loaded. -/
theorem unauthorized_response (env : Env) (r : Request) (hm : r.Method = "POST")
    (ha : (r.Header "Authorization").head? ≠ some "Authorization") :
    (handleIntersections env r).Response
      = some ⟨401, [("Content-Type", "text/plain; charset=utf-8"),
          ("X-Content-Type-Options", "nosniff")], "Unauthorized\n"⟩ ∧
    (handleIntersections env r).Effects = [] := by
  have hget : Header.Get r.Header "Authorization" ≠ "Authorization" := by
    intro hcon
    unfold Header.Get at hcon
    cases hv : r.Header "Authorization" with
    | nil =>
      rw [hv] at hcon
      exact absurd hcon (by decide)
    | cons v vs =>
      rw [hv] at hcon ha
      exact ha (congrArg some hcon)
  have hpost : ¬(r.Method ≠ http.MethodPost) := not_not.mpr hm
  unfold handleIntersections
  rw [if_neg hpost]
  dsimp only
  rw [if_pos hget]
  exact ⟨rfl, rfl⟩

/-- A concrete instance: a POST request carrying a wrong token. -/
theorem unauthorized_response_witness :
    (Request.mk "POST" (fun _ => ["Bearer x"]) "").Method = "POST" ∧
    ((Request.mk "POST" (fun _ => ["Bearer x"]) "").Header "Authorization").head?
      ≠ some "Authorization" ∧
    ((handleIntersections failingEnv ⟨"POST", fun _ => ["Bearer x"], ""⟩).Response
      = some ⟨401, [("Content-Type", "text/plain; charset=utf-8"),
          ("X-Content-Type-Options", "nosniff")], "Unauthorized\n"⟩ ∧
    (handleIntersections failingEnv ⟨"POST", fun _ => ["Bearer x"], ""⟩).Effects = []) :=
  ⟨rfl, by decide,
    unauthorized_response failingEnv ⟨"POST", fun _ => ["Bearer x"], ""⟩ rfl (by decide)⟩

/-- C13, as stated, fails: the POST request without any Authorization header is answered
with status 401 and a response body that is not empty. -/
theorem unauthorized_body_not_empty :
    ∃ resp : Response,
      (handleIntersections failingEnv ⟨"POST", fun _ => [], ""⟩).Response = some resp ∧
      resp.Status = 401 ∧ resp.Body = "Unauthorized\n" ∧ resp.Body ≠ "" :=
  ⟨⟨401, [("Content-Type", "text/plain; charset=utf-8"), ("X-Content-Type-Options", "nosniff")],
    "Unauthorized\n"⟩, by decide, rfl, rfl, by decide⟩

/-- C14: a request whose method is not POST is answered with status 405, whatever its
Authorization header and body are; the method check comes first, so the status is never 401,
and nothing is read. -/
theorem non_post_method_not_allowed (env : Env) (r : Request) (hm : r.Method ≠ "POST") :
    ∃ resp : Response, (handleIntersections env r).Response = some resp ∧
      resp.Status = 405 ∧ resp.Status ≠ 401 ∧ (handleIntersections env r).Effects = [] := by
  have hnot : r.Method ≠ http.MethodPost := hm
  unfold handleIntersections
  rw [if_pos hnot]
  exact ⟨_, rfl, rfl, by decide, rfl⟩

/-- A concrete instance: a GET request that carries the expected token. -/
theorem non_post_method_not_allowed_witness :
    (Request.mk "GET" (fun _ => ["Authorization"]) "").Method ≠ "POST" ∧
    ∃ resp : Response,
      (handleIntersections failingEnv ⟨"GET", fun _ => ["Authorization"], ""⟩).Response
        = some resp ∧
      resp.Status = 405 ∧ resp.Status ≠ 401 ∧
      (handleIntersections failingEnv ⟨"GET", fun _ => ["Authorization"], ""⟩).Effects = [] :=
  ⟨by decide,
    non_post_method_not_allowed failingEnv ⟨"GET", fun _ => ["Authorization"], ""⟩ (by decide)⟩

/-- Over exact arithmetic the collinear branch has no false positive: there are no segments `p1 p2`, `q1 q2` for
which one of the four collinear branches of `doLinesIntersect` passes while its middle point
is off the closed segment between the other two. -/
theorem no_false_positive_in_collinear_branch :
    ¬∃ p1 p2 q1 q2 : Pt,
      (getOrientation [p1.1, p1.2] [p2.1, p2.2] [q1.1, q1.2] = some 0 ∧
        isOnSegment [p1.1, p1.2] [q1.1, q1.2] [p2.1, p2.2] = some true ∧
        ¬OnClosedSegment p1 p2 q1) ∨
      (getOrientation [p1.1, p1.2] [p2.1, p2.2] [q2.1, q2.2] = some 0 ∧
        isOnSegment [p1.1, p1.2] [q2.1, q2.2] [p2.1, p2.2] = some true ∧
        ¬OnClosedSegment p1 p2 q2) ∨
      (getOrientation [q1.1, q1.2] [q2.1, q2.2] [p1.1, p1.2] = some 0 ∧
        isOnSegment [q1.1, q1.2] [p1.1, p1.2] [q2.1, q2.2] = some true ∧
        ¬OnClosedSegment q1 q2 p1) ∨
      (getOrientation [q1.1, q1.2] [q2.1, q2.2] [p2.1, p2.2] = some 0 ∧
        isOnSegment [q1.1, q1.2] [p2.1, p2.2] [q2.1, q2.2] = some true ∧
        ¬OnClosedSegment q1 q2 p2) := by
  rintro ⟨p1, p2, q1, q2, ⟨ho, hs, hn⟩ | ⟨ho, hs, hn⟩ | ⟨ho, hs, hn⟩ | ⟨ho, hs, hn⟩⟩
  · exact hn (middle_point_on_segment p1 p2 q1 ho hs).2
  · exact hn (middle_point_on_segment p1 p2 q2 ho hs).2
  · exact hn (middle_point_on_segment q1 q2 p1 ho hs).2
  · exact hn (middle_point_on_segment q1 q2 p2 ho hs).2

/-- C17: over exact arithmetic, whenever `doLinesIntersect` is `true` and
`findIntersectionPoint` returns a point `P`, `P` has two coordinates and lies on the closed
segment `p1 p2` and on the closed segment `q1 q2`, hence inside both bounding boxes; this is
the point `findIntersections` emits for the pair. -/
theorem emitted_point_on_both_segments (x1 y1 x2 y2 x3 y3 x4 y4 : ℚ) (P : List ℚ)
    (ty id : String)
    (hd : doLinesIntersect [x1, y1] [x2, y2] [x3, y3] [x4, y4] = some true)
    (hp : findIntersectionPoint [x1, y1] [x2, y2] [x3, y3] [x4, y4] = some (some P)) :
    ∃ x y : ℚ, P = [x, y] ∧
      OnClosedSegment (x1, y1) (x2, y2) (x, y) ∧ OnClosedSegment (x3, y3) (x4, y4) (x, y) ∧
      InBox (x1, y1) (x, y) (x2, y2) ∧ InBox (x3, y3) (x, y) (x4, y4) ∧
      findIntersections ⟨ty, [[x3, y3], [x4, y4]]⟩ [⟨id, [x1, y1], [x2, y2]⟩]
        = some [⟨id, some [x, y]⟩] := by
  rw [doLinesIntersect_cons (x1, y1) (x2, y2) (x3, y3) (x4, y4) [] [] [] []] at hd
  rw [findIntersectionPoint_cons (x1, y1) (x2, y2) (x3, y3) (x4, y4) [] [] [] []] at hp
  have hc : Crit (x1, y1) (x2, y2) (x3, y3) (x4, y4) := of_decide_eq_true (Option.some.inj hd)
  have hl : linePoint (x1, y1) (x2, y2) (x3, y3) (x4, y4) = some P := Option.some.inj hp
  have hden : denom (x1, y1) (x2, y2) (x3, y3) (x4, y4) ≠ 0 := by
    intro h0
    rw [linePoint, if_pos h0] at hl
    exact Option.noConfusion hl
  obtain ⟨x, y, hxy, hon1, hon2⟩ := linePoint_on_segments hc hden
  have hf : findIntersections ⟨ty, [[x3, y3], [x4, y4]]⟩ [⟨id, [x1, y1], [x2, y2]⟩]
      = some (if Crit (x1, y1) (x2, y2) (x3, y3) (x4, y4)
          then [⟨id, linePoint (x1, y1) (x2, y2) (x3, y3) (x4, y4)⟩] else []) :=
    findIntersections_single ty id (x1, y1) (x2, y2) (x3, y3) (x4, y4) [] [] [] []
  refine ⟨x, y, ?_, hon1, hon2, onClosedSegment_inBox hon1, onClosedSegment_inBox hon2, ?_⟩
  · exact Option.some.inj (hl.symm.trans hxy)
  · rw [hf, if_pos hc, hxy]

/-- A concrete instance: the diagonal and the anti-diagonal of a square meet at `(1, 1)`. -/
theorem emitted_point_on_both_segments_witness :
    doLinesIntersect [0, 0] [2, 2] [0, 2] [2, 0] = some true ∧
    findIntersectionPoint [0, 0] [2, 2] [0, 2] [2, 0] = some (some [1, 1]) ∧
    ∃ x y : ℚ, [1, 1] = [x, y] ∧
      OnClosedSegment (0, 0) (2, 2) (x, y) ∧ OnClosedSegment (0, 2) (2, 0) (x, y) ∧
      InBox (0, 0) (x, y) (2, 2) ∧ InBox (0, 2) (x, y) (2, 0) ∧
      findIntersections ⟨"LineString", [[0, 2], [2, 0]]⟩ [⟨"A", [0, 0], [2, 2]⟩]
        = some [⟨"A", some [x, y]⟩] :=
  have hd : doLinesIntersect [0, 0] [2, 2] [0, 2] [2, 0] = some true := by
    norm_num [doLinesIntersect, getOrientation, isOnSegment]
  have hp : findIntersectionPoint [0, 0] [2, 2] [0, 2] [2, 0] = some (some [1, 1]) := by
    norm_num [findIntersectionPoint]
  ⟨hd, hp, emitted_point_on_both_segments 0 0 2 2 0 2 2 0 [1, 1] "LineString" "A" hd hp⟩

/-- C18: over exact arithmetic, whenever `doLinesIntersect` is `true` and
`findIntersectionPoint` returns `nil` (the denominator is `0`), the four endpoints lie on one
line; `findIntersections` then emits the entry with the `nil` point, also when the segments
share exactly one point. -/
theorem nil_point_only_when_collinear (x1 y1 x2 y2 x3 y3 x4 y4 : ℚ) (ty id : String)
    (hd : doLinesIntersect [x1, y1] [x2, y2] [x3, y3] [x4, y4] = some true)
    (hp : findIntersectionPoint [x1, y1] [x2, y2] [x3, y3] [x4, y4] = some none) :
    OnCommonLine (x1, y1) (x2, y2) (x3, y3) (x4, y4) ∧
    Collinear3 (x1, y1) (x2, y2) (x3, y3) ∧ Collinear3 (x1, y1) (x2, y2) (x4, y4) ∧
    Collinear3 (x3, y3) (x4, y4) (x1, y1) ∧ Collinear3 (x3, y3) (x4, y4) (x2, y2) ∧
    (x1 - x2) * (y3 - y4) - (y1 - y2) * (x3 - x4) = 0 ∧
    findIntersections ⟨ty, [[x3, y3], [x4, y4]]⟩ [⟨id, [x1, y1], [x2, y2]⟩]
      = some [⟨id, none⟩] := by
  rw [doLinesIntersect_cons (x1, y1) (x2, y2) (x3, y3) (x4, y4) [] [] [] []] at hd
  rw [findIntersectionPoint_cons (x1, y1) (x2, y2) (x3, y3) (x4, y4) [] [] [] []] at hp
  have hc : Crit (x1, y1) (x2, y2) (x3, y3) (x4, y4) := of_decide_eq_true (Option.some.inj hd)
  have hl : linePoint (x1, y1) (x2, y2) (x3, y3) (x4, y4) = none := Option.some.inj hp
  have hden : denom (x1, y1) (x2, y2) (x3, y3) (x4, y4) = 0 := by
    by_contra hne
    rw [linePoint, if_neg hne] at hl
    exact Option.noConfusion hl
  have hm := segmentsMeet_of_crit hc
  have hpar : Parallel (x1, y1) (x2, y2) (x3, y3) (x4, y4) := by
    unfold Parallel
    rw [← denom_eq_parallel]
    exact hden
  obtain ⟨e1, e2, e3, e4⟩ := crossVal_zero_of_parallel_meet hpar hm
  have hf : findIntersections ⟨ty, [[x3, y3], [x4, y4]]⟩ [⟨id, [x1, y1], [x2, y2]⟩]
      = some (if Crit (x1, y1) (x2, y2) (x3, y3) (x4, y4)
          then [⟨id, linePoint (x1, y1) (x2, y2) (x3, y3) (x4, y4)⟩] else []) :=
    findIntersections_single ty id (x1, y1) (x2, y2) (x3, y3) (x4, y4) [] [] [] []
  refine ⟨onCommonLine_of_crossVal_zero hm e1 e2 e3 e4,
    (crossVal_eq_zero_iff_collinear3 _ _ _).mp e1, (crossVal_eq_zero_iff_collinear3 _ _ _).mp e2,
    (crossVal_eq_zero_iff_collinear3 _ _ _).mp e3, (crossVal_eq_zero_iff_collinear3 _ _ _).mp e4,
    hden, ?_⟩
  rw [hf, if_pos hc, hl]

/-- A concrete instance: two segments of the main diagonal that share exactly the point
`(1, 1)`. -/
theorem nil_point_only_when_collinear_witness :
    doLinesIntersect [0, 0] [1, 1] [1, 1] [2, 2] = some true ∧
    findIntersectionPoint [0, 0] [1, 1] [1, 1] [2, 2] = some none ∧
    (OnCommonLine (0, 0) (1, 1) (1, 1) (2, 2) ∧
      Collinear3 (0, 0) (1, 1) (1, 1) ∧ Collinear3 (0, 0) (1, 1) (2, 2) ∧
      Collinear3 (1, 1) (2, 2) (0, 0) ∧ Collinear3 (1, 1) (2, 2) (1, 1) ∧
      ((0 : ℚ) - 1) * (1 - 2) - (0 - 1) * (1 - 2) = 0 ∧
      findIntersections ⟨"LineString", [[1, 1], [2, 2]]⟩ [⟨"A", [0, 0], [1, 1]⟩]
        = some [⟨"A", none⟩]) :=
  have hd : doLinesIntersect [0, 0] [1, 1] [1, 1] [2, 2] = some true := by
    norm_num [doLinesIntersect, getOrientation, isOnSegment, max, min]
  have hp : findIntersectionPoint [0, 0] [1, 1] [1, 1] [2, 2] = some none := by
    norm_num [findIntersectionPoint]
  ⟨hd, hp, nil_point_only_when_collinear 0 0 1 1 1 1 2 2 "LineString" "A" hd hp⟩

/-- C20: over exact arithmetic `findIntersectionPoint` is symmetric on two-coordinate points:
exchanging the two segments or reversing either of them changes neither whether the result
is `nil` nor the coordinates returned. -/
theorem findIntersectionPoint_symm (x1 y1 x2 y2 x3 y3 x4 y4 : ℚ) :
    findIntersectionPoint [x1, y1] [x2, y2] [x3, y3] [x4, y4]
      = findIntersectionPoint [x3, y3] [x4, y4] [x1, y1] [x2, y2] ∧
    findIntersectionPoint [x1, y1] [x2, y2] [x3, y3] [x4, y4]
      = findIntersectionPoint [x2, y2] [x1, y1] [x3, y3] [x4, y4] ∧
    findIntersectionPoint [x1, y1] [x2, y2] [x3, y3] [x4, y4]
      = findIntersectionPoint [x1, y1] [x2, y2] [x4, y4] [x3, y3] := by
  have h0 : findIntersectionPoint [x1, y1] [x2, y2] [x3, y3] [x4, y4]
      = some (linePoint (x1, y1) (x2, y2) (x3, y3) (x4, y4)) :=
    findIntersectionPoint_cons (x1, y1) (x2, y2) (x3, y3) (x4, y4) [] [] [] []
  have h1 : findIntersectionPoint [x3, y3] [x4, y4] [x1, y1] [x2, y2]
      = some (linePoint (x3, y3) (x4, y4) (x1, y1) (x2, y2)) :=
    findIntersectionPoint_cons (x3, y3) (x4, y4) (x1, y1) (x2, y2) [] [] [] []
  have h2 : findIntersectionPoint [x2, y2] [x1, y1] [x3, y3] [x4, y4]
      = some (linePoint (x2, y2) (x1, y1) (x3, y3) (x4, y4)) :=
    findIntersectionPoint_cons (x2, y2) (x1, y1) (x3, y3) (x4, y4) [] [] [] []
  have h3 : findIntersectionPoint [x1, y1] [x2, y2] [x4, y4] [x3, y3]
      = some (linePoint (x1, y1) (x2, y2) (x4, y4) (x3, y3)) :=
    findIntersectionPoint_cons (x1, y1) (x2, y2) (x4, y4) (x3, y3) [] [] [] []
  rw [h0, h1, h2, h3]
  exact ⟨congrArg some (linePoint_swap _ _ _ _), congrArg some (linePoint_rev_left _ _ _ _),
    congrArg some (linePoint_rev_right _ _ _ _)⟩

/-! ## The claims decided by binary64 arithmetic -/

/-- C2, as stated for the program, fails: in binary64 the segments `(0,0)-(2^29, 2^29+4)` and
`(2^30+4, 2^30+12)-(2^29+1, 2^29+5)` have disjoint bounding boxes, yet two orientation values
round to `0`, `doLinesIntersect` returns `true` and `findIntersections` emits an entry. -/
theorem float_boxesDisjoint_reported :
    BoxesDisjoint (F64.ratPoint (F64.ofInt 0) (F64.ofInt 0))
      (F64.ratPoint (F64.ofInt 536870912) (F64.ofInt 536870916))
      (F64.ratPoint (F64.ofInt 1073741828) (F64.ofInt 1073741836))
      (F64.ratPoint (F64.ofInt 536870913) (F64.ofInt 536870917)) ∧
    Float64.doLinesIntersect [F64.ofInt 0, F64.ofInt 0] [F64.ofInt 536870912, F64.ofInt 536870916]
      [F64.ofInt 1073741828, F64.ofInt 1073741836] [F64.ofInt 536870913, F64.ofInt 536870917]
      = some true ∧
    Float64.findIntersections
      ⟨"LineString", [[F64.ofInt 1073741828, F64.ofInt 1073741836],
        [F64.ofInt 536870913, F64.ofInt 536870917]]⟩
      [⟨"A", [F64.ofInt 0, F64.ofInt 0], [F64.ofInt 536870912, F64.ofInt 536870916]⟩]
      = some [⟨"A", none⟩] := by
  refine ⟨?_, by decide, by decide⟩
  simp only [F64.ratPoint, F64.toRat_ofInt]
  unfold BoxesDisjoint
  norm_num

/-- C5, as stated for the program, fails: in binary64 the non-degenerate segments
`(0,0)-(2^27, 2^27+1)` and `(1,1)-(2^27+1, 2^27+2)` are parallel and `(1,1)` is off the line
of the first, yet its orientation value rounds to `0` and `doLinesIntersect` returns
`true`. -/
theorem float_parallel_reported :
    Parallel (F64.ratPoint (F64.ofInt 0) (F64.ofInt 0))
      (F64.ratPoint (F64.ofInt 134217728) (F64.ofInt 134217729))
      (F64.ratPoint (F64.ofInt 1) (F64.ofInt 1))
      (F64.ratPoint (F64.ofInt 134217729) (F64.ofInt 134217730)) ∧
    ¬Collinear3 (F64.ratPoint (F64.ofInt 0) (F64.ofInt 0))
      (F64.ratPoint (F64.ofInt 134217728) (F64.ofInt 134217729))
      (F64.ratPoint (F64.ofInt 1) (F64.ofInt 1)) ∧
    F64.ratPoint (F64.ofInt 0) (F64.ofInt 0)
      ≠ F64.ratPoint (F64.ofInt 134217728) (F64.ofInt 134217729) ∧
    F64.ratPoint (F64.ofInt 1) (F64.ofInt 1)
      ≠ F64.ratPoint (F64.ofInt 134217729) (F64.ofInt 134217730) ∧
    Float64.doLinesIntersect [F64.ofInt 0, F64.ofInt 0] [F64.ofInt 134217728, F64.ofInt 134217729]
      [F64.ofInt 1, F64.ofInt 1] [F64.ofInt 134217729, F64.ofInt 134217730] = some true ∧
    Float64.findIntersections
      ⟨"LineString", [[F64.ofInt 1, F64.ofInt 1], [F64.ofInt 134217729, F64.ofInt 134217730]]⟩
      [⟨"A", [F64.ofInt 0, F64.ofInt 0], [F64.ofInt 134217728, F64.ofInt 134217729]⟩]
      = some [⟨"A", none⟩] := by
  refine ⟨?_, ?_, ?_, ?_, by decide, by decide⟩
  · simp only [F64.ratPoint, F64.toRat_ofInt]
    unfold Parallel
    norm_num
  · simp only [F64.ratPoint, F64.toRat_ofInt]
    unfold Collinear3
    norm_num
  · simp only [F64.ratPoint, F64.toRat_ofInt]
    intro h
    have h1 := congrArg Prod.fst h
    simp only at h1
    norm_num at h1
  · simp only [F64.ratPoint, F64.toRat_ofInt]
    intro h
    have h1 := congrArg Prod.fst h
    simp only at h1
    norm_num at h1

/-- C6, as stated for the program, fails: in binary64 the segments `(1,3)-(2^52, 3*2^52)` and
`(2,6)-(4,12)` lie on the line `y = 3x` and the second is inside the first, yet two
orientation values round away from `0`, `doLinesIntersect` returns `false` and
`findIntersections` emits nothing. -/
theorem float_collinear_overlap_missed :
    OnCommonLine (F64.ratPoint (F64.ofInt 1) (F64.ofInt 3))
      (F64.ratPoint (F64.ofInt 4503599627370496) (F64.ofInt 13510798882111488))
      (F64.ratPoint (F64.ofInt 2) (F64.ofInt 6)) (F64.ratPoint (F64.ofInt 4) (F64.ofInt 12)) ∧
    SegmentsMeet (F64.ratPoint (F64.ofInt 1) (F64.ofInt 3))
      (F64.ratPoint (F64.ofInt 4503599627370496) (F64.ofInt 13510798882111488))
      (F64.ratPoint (F64.ofInt 2) (F64.ofInt 6)) (F64.ratPoint (F64.ofInt 4) (F64.ofInt 12)) ∧
    Float64.doLinesIntersect [F64.ofInt 1, F64.ofInt 3]
      [F64.ofInt 4503599627370496, F64.ofInt 13510798882111488]
      [F64.ofInt 2, F64.ofInt 6] [F64.ofInt 4, F64.ofInt 12] = some false ∧
    Float64.findIntersections
      ⟨"LineString", [[F64.ofInt 2, F64.ofInt 6], [F64.ofInt 4, F64.ofInt 12]]⟩
      [⟨"A", [F64.ofInt 1, F64.ofInt 3],
        [F64.ofInt 4503599627370496, F64.ofInt 13510798882111488]⟩] = some [] := by
  refine ⟨?_, ?_, by decide, by decide⟩
  · simp only [F64.ratPoint, F64.toRat_ofInt]
    exact ⟨3, -1, 0, Or.inl (by norm_num), by norm_num, by norm_num, by norm_num, by norm_num⟩
  · simp only [F64.ratPoint, F64.toRat_ofInt]
    exact ⟨(2, 6), ⟨1 / 4503599627370495, by norm_num, by norm_num, by norm_num, by norm_num⟩,
      ⟨0, by norm_num, by norm_num, by norm_num, by norm_num⟩⟩

/-- C11: over binary64, `findIntersectionPoint` returns the `nil` point if and only if the
denominator it computes, `(x1-x2)*(y3-y4) - (y1-y2)*(x3-x4)`, compares equal to `0`, whatever
`doLinesIntersect` says of the pair; otherwise it returns a point of exactly two coordinates,
the Cramer numerators divided by that denominator. -/
theorem float_findIntersectionPoint_nil_iff (x1 y1 x2 y2 x3 y3 x4 y4 : F64) :
    (Float64.findIntersectionPoint [x1, y1] [x2, y2] [x3, y3] [x4, y4] = some none ↔
      F64.eq ((x1 - x2) * (y3 - y4) - (y1 - y2) * (x3 - x4)) F64.zero = true) ∧
    Float64.findIntersectionPoint [x1, y1] [x2, y2] [x3, y3] [x4, y4]
      = some (if F64.eq ((x1 - x2) * (y3 - y4) - (y1 - y2) * (x3 - x4)) F64.zero = true then none
          else some
            [((x1 * y2 - y1 * x2) * (x3 - x4) - (x1 - x2) * (x3 * y4 - y3 * x4))
                / ((x1 - x2) * (y3 - y4) - (y1 - y2) * (x3 - x4)),
             ((x1 * y2 - y1 * x2) * (y3 - y4) - (y1 - y2) * (x3 * y4 - y3 * x4))
                / ((x1 - x2) * (y3 - y4) - (y1 - y2) * (x3 - x4))]) := by
  have hf : Float64.findIntersectionPoint [x1, y1] [x2, y2] [x3, y3] [x4, y4]
      = some (if F64.eq ((x1 - x2) * (y3 - y4) - (y1 - y2) * (x3 - x4)) F64.zero = true
          then none
          else some
            [((x1 * y2 - y1 * x2) * (x3 - x4) - (x1 - x2) * (x3 * y4 - y3 * x4))
                / ((x1 - x2) * (y3 - y4) - (y1 - y2) * (x3 - x4)),
             ((x1 * y2 - y1 * x2) * (y3 - y4) - (y1 - y2) * (x3 * y4 - y3 * x4))
                / ((x1 - x2) * (y3 - y4) - (y1 - y2) * (x3 - x4))]) := by
    simp only [Float64.findIntersectionPoint]
    simp
    split_ifs <;> rfl
  refine ⟨?_, hf⟩
  rw [hf]
  by_cases h : F64.eq ((x1 - x2) * (y3 - y4) - (y1 - y2) * (x3 - x4)) F64.zero = true
  · simp [h]
  · simp [h]

/-- C16: there are segments for which the collinear branch of `doLinesIntersect` accepts a
false positive. In binary64, for `p1 p2 = (0,0)-(2^27, 2^27+1)` and `q1 = q2 = (1,1)`, the
orientation of `p1, p2, q1` rounds to `0` and `isOnSegment p1 q1 p2` passes, so the segments
are deemed intersecting, although `q1` is not collinear with `p1, p2`, is not on the closed
segment `p1 p2`, and the two segments share no point. -/
theorem float_collinear_branch_false_positive :
    ∃ x1 y1 x2 y2 x3 y3 : F64,
      (x1.isBinary64 = true ∧ y1.isBinary64 = true ∧ x2.isBinary64 = true ∧
        y2.isBinary64 = true ∧ x3.isBinary64 = true ∧ y3.isBinary64 = true) ∧
      Float64.getOrientation [x1, y1] [x2, y2] [x3, y3] = some 0 ∧
      Float64.isOnSegment [x1, y1] [x3, y3] [x2, y2] = some true ∧
      Float64.doLinesIntersect [x1, y1] [x2, y2] [x3, y3] [x3, y3] = some true ∧
      ¬Collinear3 (F64.ratPoint x1 y1) (F64.ratPoint x2 y2) (F64.ratPoint x3 y3) ∧
      ¬OnClosedSegment (F64.ratPoint x1 y1) (F64.ratPoint x2 y2) (F64.ratPoint x3 y3) ∧
      ¬SegmentsMeet (F64.ratPoint x1 y1) (F64.ratPoint x2 y2) (F64.ratPoint x3 y3)
        (F64.ratPoint x3 y3) := by
  have hon : ¬OnClosedSegment ((0 : ℚ), (0 : ℚ)) ((134217728 : ℚ), (134217729 : ℚ))
      ((1 : ℚ), (1 : ℚ)) := by
    rintro ⟨t, _, _, hx, hy⟩
    simp only at hx hy
    linarith
  refine ⟨F64.ofInt 0, F64.ofInt 0, F64.ofInt 134217728, F64.ofInt 134217729, F64.ofInt 1,
    F64.ofInt 1, by decide, by decide, by decide, by decide, ?_, ?_, ?_⟩
  · simp only [F64.ratPoint, F64.toRat_ofInt]
    unfold Collinear3
    norm_num
  · simp only [F64.ratPoint, F64.toRat_ofInt, Int.cast_zero, Int.cast_one, Int.cast_ofNat]
    exact hon
  · simp only [F64.ratPoint, F64.toRat_ofInt, Int.cast_zero, Int.cast_one, Int.cast_ofNat]
    rintro ⟨x, hp, ⟨t, _, _, hx, hy⟩⟩
    apply hon
    have hx1 : x.1 = 1 := by simpa using hx
    have hx2 : x.2 = 1 := by simpa using hy
    have hxe : x = ((1 : ℚ), (1 : ℚ)) := Prod.ext hx1 hx2
    rw [← hxe]
    exact hp

end Intersections
